import Mathlib

/-!
# A shallow embedding of `sfmm.c` (segregated free-list allocator)

The arena and the sentinel array `sf_free_list_heads` are one flat,
byte-addressed memory of 64-bit words.  A block pointer `b` is the address of
an `sf_block`: `prev_footer` at `b`, `header` at `b + 8`, `body.links.next` at
`b + 16`, `body.links.prev` at `b + 24`; the payload starts at `b + 16`, as in
`sf_malloc` and `sf_free`.  Every access goes through `GET` and `PUT`, which
fail with `Outcome.fault` outside the arena and the sentinel array (a null or
wild dereference).  The memory holds the word stored at every 8-aligned
address; an access at an address that is not 8-aligned proceeds as on x86-64:
it reads or writes the eight bytes, in little-endian order, of the two aligned
words it straddles.  `abort()` is `Outcome.abort`.  Size and pointer arithmetic
wrap modulo `2 ^ 64`.  The `while` loop of `get_fit_block` takes fuel; every
other loop has a bound.

The constants and the arena provider of `sfmm.h` are the fields of `Config`.
The file has three parts: the functions of `sfmm.c`, the observations and
relations the statements use, and the theorems (general facts first, then one
theorem per claim, `C1` to `C20`).
-/

namespace Sfmm
set_option linter.all false

/-! ## Constants of `sfmm.c` -/

/-- Modulus of `size_t` and of pointers. -/
def WORD : Nat := 2 ^ 64

def WSIZE : Nat := 8

def DSIZE : Nat := 16

def MIN_BLOCK_SIZE : Nat := 32

/-- Value of `ENOMEM` stored in `sf_errno`. -/
def ENOMEM : Nat := 12

/-- Unsigned 64-bit addition. -/
def add64 (a b : Nat) : Nat := (a + b) % WORD

/-- Unsigned 64-bit subtraction. -/
def sub64 (a b : Nat) : Nat := (a + (WORD - b % WORD)) % WORD

/-- The parts of `sfmm.h` and of the arena provider that `sfmm.c` uses but
does not define, taken as parameters: the number of free lists, the page size,
the address that `sf_mem_start()` returns, the address of
`sf_free_list_heads[0]`, and the number of pages after which `sf_mem_grow()`
fails. -/
structure Config where
  NUM_FREE_LISTS : Nat
  PAGE_SZ : Nat
  mem_start : Nat
  heads : Nat
  max_pages : Nat

/-- Process state: memory words, pages obtained from `sf_mem_grow`, the global
`heap_is_init`, and `sf_errno`. -/
structure Heap where
  mem : Nat → Nat
  pages : Nat
  heap_is_init : Bool
  sf_errno : Nat

/-- Result of running a piece of the allocator: normal return, `abort()`,
an invalid memory access, or a loop that ran out of fuel. -/
inductive Outcome (α : Type) where
  | ok (a : α) (h : Heap)
  | abort
  | fault
  | timeout

/-- Stateful computations over the heap. -/
def M (α : Type) : Type := Heap → Outcome α

def ret {α : Type} (a : α) : M α := fun h => Outcome.ok a h

def bnd {α β : Type} (m : M α) (f : α → M β) : M β := fun h =>
  match m h with
  | Outcome.ok a h1 => f a h1
  | Outcome.abort => Outcome.abort
  | Outcome.fault => Outcome.fault
  | Outcome.timeout => Outcome.timeout

def do_abort {α : Type} : M α := fun _ => Outcome.abort

/-! ## Memory and the arena provider -/

/-- Modelled from the spec: `sf_mem_end()`, the exclusive upper bound of the
arena, which advances by one page per successful growth. -/
def mem_end (c : Config) (h : Heap) : Nat := c.mem_start + h.pages * c.PAGE_SZ

/-- An 8-byte access at `a` lies inside the arena or inside the array
`sf_free_list_heads` (elements of 32 bytes). -/
def mapped (c : Config) (h : Heap) (a : Nat) : Bool :=
  (decide (c.mem_start ≤ a) && decide (a + 8 ≤ mem_end c h)) ||
    (decide (c.heads ≤ a) && decide (a + 8 ≤ c.heads + 32 * c.NUM_FREE_LISTS))

/-- An 8-byte access at `a` is 8-aligned and lies inside the arena or inside the
array `sf_free_list_heads`. -/
def aligned_mapped (c : Config) (h : Heap) (a : Nat) : Bool :=
  a % 8 == 0 && mapped c h a

/-- The heap with the word at the 8-aligned address `a` replaced by `v`. -/
def store (h : Heap) (a v : Nat) : Heap :=
  { h with mem := fun x => if x = a then v else h.mem x }

/-- The 64-bit word read at `a`: the stored word when `a` is 8-aligned; else,
with `r = a % 8`, the upper `8 - r` bytes of the aligned word below `a` followed
by the lower `r` bytes of the next aligned word (little-endian). -/
def load (h : Heap) (a : Nat) : Nat :=
  if a % 8 = 0 then h.mem a
  else
    ((h.mem (a - a % 8) >>> (8 * (a % 8))) |||
      (h.mem (a - a % 8 + 8) <<< (64 - 8 * (a % 8)))) % WORD

/-- The heap after the 64-bit word `v` is written at `a`: one stored word when
`a` is 8-aligned; else, with `r = a % 8`, the lower `8 - r` bytes of `v` go to
the upper bytes of the aligned word below `a` and the upper `r` bytes of `v` to
the lower bytes of the next aligned word (little-endian). -/
def write (h : Heap) (a v : Nat) : Heap :=
  if a % 8 = 0 then store h a v
  else
    store
      (store h (a - a % 8)
        ((h.mem (a - a % 8) % 2 ^ (8 * (a % 8))) ||| ((v <<< (8 * (a % 8))) % WORD)))
      (a - a % 8 + 8)
      (((h.mem (a - a % 8 + 8) >>> (8 * (a % 8))) <<< (8 * (a % 8))) |||
        ((v % WORD) >>> (64 - 8 * (a % 8))))

/-- `GET(p)`. -/
def GET (c : Config) (a : Nat) : M Nat := fun h =>
  if mapped c h a then Outcome.ok (load h a) h else Outcome.fault

/-- `PUT(p, val)`. -/
def PUT (c : Config) (a v : Nat) : M Unit := fun h =>
  if mapped c h a then Outcome.ok () (write h a v) else Outcome.fault

def sf_mem_start (c : Config) : M Nat := fun h => Outcome.ok c.mem_start h

def sf_mem_end (c : Config) : M Nat := fun h => Outcome.ok (mem_end c h) h

/-- Modelled from the spec: `sf_mem_grow()` extends the arena by one page and
returns the start of the new page, or returns `NULL` when it cannot grow. -/
def sf_mem_grow (c : Config) : M Nat := fun h =>
  if h.pages < c.max_pages then
    Outcome.ok (mem_end c h) { h with pages := h.pages + 1 }
  else Outcome.ok 0 h

def set_errno (v : Nat) : M Unit := fun h => Outcome.ok () { h with sf_errno := v }

def set_init (b : Bool) : M Unit := fun h => Outcome.ok () { h with heap_is_init := b }

def get_init : M Bool := fun h => Outcome.ok h.heap_is_init h

/-! ## Block layout macros -/

/-- The mask `~0xF` on 64 bits. -/
def SIZE_MASK : Nat := 0xFFFFFFFFFFFFFFF0

/-- `x & ~0xF`. -/
def size_of (x : Nat) : Nat := x &&& SIZE_MASK

/-- `(x & 0x2) >> 1`. -/
def alloc_of (x : Nat) : Nat := (x &&& 2) >>> 1

/-- `x & 0x1`. -/
def prev_alloc_of (x : Nat) : Nat := x &&& 1

/-- `PACK(size, alloc, prev_alloc)`. -/
def PACK (size alloc prev_alloc : Nat) : Nat := size ||| (alloc <<< 1) ||| prev_alloc

/-- `HDR_ADDR(block)`. -/
def HDR_ADDR (b : Nat) : Nat := add64 b 8

/-- Modelled from the spec: the address of `block->body.links.next`.  The
struct `sf_block` is declared in `sfmm.h`; the two link fields of a free block
are the first two words of its body, `next` first. -/
def NEXT_ADDR (b : Nat) : Nat := add64 b 16

/-- Modelled from the spec: the address of `block->body.links.prev`. -/
def PREV_ADDR (b : Nat) : Nat := add64 b 24

/-- `GET_SIZE(p)`. -/
def GET_SIZE (c : Config) (p : Nat) : M Nat := bnd (GET c p) fun x => ret (size_of x)

/-- `IS_ALLOC(p)`. -/
def IS_ALLOC (c : Config) (p : Nat) : M Nat := bnd (GET c p) fun x => ret (alloc_of x)

/-- `IS_PREV_ALLOC(p)`. -/
def IS_PREV_ALLOC (c : Config) (p : Nat) : M Nat :=
  bnd (GET c p) fun x => ret (prev_alloc_of x)

/-- `FTR_ADDR(block)`: reads the header. -/
def FTR_ADDR (c : Config) (b : Nat) : M Nat :=
  bnd (GET_SIZE c (HDR_ADDR b)) fun sz => ret (add64 b sz)

/-- Modelled from the spec: the address of `sf_free_list_heads[i]`; an
`sf_block` (previous footer, header and two links) takes 32 bytes. -/
def head_addr (c : Config) (i : Nat) : Nat := add64 c.heads (32 * i)

/-! ## Helper functions of `sfmm.c` -/

def set_header_footer (c : Config) (block size alloc_flags : Nat) : M Unit :=
  let header_footer := size ||| alloc_flags
  bnd (PUT c (HDR_ADDR block) header_footer) fun _ =>
  if alloc_flags &&& 2 = 0 then
    bnd (FTR_ADDR c block) fun f => PUT c f header_footer
  else ret ()

def get_aligned_size (size : Nat) : Nat :=
  let adjusted_size := add64 size WSIZE
  let remainder := adjusted_size % 16
  let adjusted_size :=
    if remainder ≠ 0 then add64 adjusted_size (16 - remainder) else adjusted_size
  if adjusted_size < MIN_BLOCK_SIZE then MIN_BLOCK_SIZE else adjusted_size

def get_prev_block (c : Config) (block : Nat) : M Nat :=
  bnd (IS_PREV_ALLOC c (HDR_ADDR block)) fun pa =>
  if pa ≠ 0 then ret 0 else
  bnd (GET_SIZE c block) fun sz =>
  let prev_block := sub64 block sz
  bnd (sf_mem_start c) fun st =>
  if prev_block < add64 st 32 then ret 0 else ret prev_block

def get_next_block (c : Config) (block : Nat) : M Nat :=
  bnd (GET_SIZE c (HDR_ADDR block)) fun sz =>
  let next_block := add64 block sz
  bnd (sf_mem_end c) fun e =>
  if next_block ≥ sub64 e 8 then ret 0 else ret next_block

def validate_pointer (c : Config) (bp : Nat) : M Bool :=
  if bp = 0 then ret false else
  if add64 bp 16 % 16 ≠ 0 then ret false else
  bnd (GET_SIZE c (HDR_ADDR bp)) fun sz =>
  if sz < MIN_BLOCK_SIZE then ret false else
  bnd (GET_SIZE c (HDR_ADDR bp)) fun sz2 =>
  if sz2 % 16 ≠ 0 then ret false else
  bnd (sf_mem_start c) fun st =>
  if HDR_ADDR bp < add64 (add64 st MIN_BLOCK_SIZE) 8 then ret false else
  bnd (FTR_ADDR c bp) fun f =>
  bnd (sf_mem_end c) fun e =>
  if f > sub64 e 8 then ret false else
  bnd (IS_ALLOC c (HDR_ADDR bp)) fun al =>
  if al = 0 then ret false else
  bnd (IS_PREV_ALLOC c (HDR_ADDR bp)) fun pa =>
  if pa = 0 then
    bnd (get_prev_block c bp) fun prev =>
    if prev = 0 then ret false else
    bnd (IS_ALLOC c (HDR_ADDR prev)) fun pal =>
    if pal ≠ 0 then ret false else ret true
  else ret true

/-- The loop of `insert_free_list` and `get_fit_block` that looks for the size
class: `n` iterations remain, `index`, `low` and `high` are the loop variables;
the result is the value of `index` when the loop is left. -/
def class_loop (size : Nat) : Nat → Nat → Nat → Nat → Nat
  | 0, index, _, _ => index
  | n + 1, index, low, high =>
    if low < size ∧ size ≤ high then index
    else class_loop size n (index + 1) (low * 2) (high * 2)

/-- The index computed at the start of `insert_free_list` and of
`get_fit_block`: the loop from `index = 1` while `index < NUM_FREE_LISTS - 2`,
then the two edge cases. -/
def class_index (c : Config) (size : Nat) : Nat :=
  let index := class_loop size (c.NUM_FREE_LISTS - 2 - 1) 1 MIN_BLOCK_SIZE (MIN_BLOCK_SIZE * 2)
  let index := if size = MIN_BLOCK_SIZE then 0 else index
  if index ≥ c.NUM_FREE_LISTS - 1 then c.NUM_FREE_LISTS - 2 else index

def insert_free_list (c : Config) (block : Nat) : M Unit :=
  bnd (GET_SIZE c (HDR_ADDR block)) fun block_size =>
  let hd := head_addr c (class_index c block_size)
  bnd (GET c (NEXT_ADDR hd)) fun n =>
  bnd (PUT c (NEXT_ADDR block) n) fun _ =>
  bnd (PUT c (PREV_ADDR block) hd) fun _ =>
  bnd (GET c (NEXT_ADDR hd)) fun n2 =>
  bnd (PUT c (PREV_ADDR n2) block) fun _ =>
  PUT c (NEXT_ADDR hd) block

def remove_free_list (c : Config) (block : Nat) : M Unit :=
  bnd (GET c (NEXT_ADDR block)) fun n =>
  bnd (GET c (PREV_ADDR block)) fun p =>
  bnd (PUT c (PREV_ADDR n) p) fun _ =>
  bnd (GET c (PREV_ADDR block)) fun p2 =>
  bnd (GET c (NEXT_ADDR block)) fun n2 =>
  bnd (PUT c (NEXT_ADDR p2) n2) fun _ =>
  bnd (PUT c (NEXT_ADDR block) 0) fun _ =>
  PUT c (PREV_ADDR block) 0

/-- The `while (curr != head)` loop of `get_fit_block` on one list; `none`
when the list holds no block of at least `size` bytes. -/
def scan_list (c : Config) (size head : Nat) : Nat → Nat → M (Option Nat)
  | 0, _ => fun _ => Outcome.timeout
  | fuel + 1, curr =>
    if curr = head then ret none else
    bnd (GET_SIZE c (HDR_ADDR curr)) fun sz =>
    if sz ≥ size then ret (some curr) else
    bnd (GET c (NEXT_ADDR curr)) fun nx => scan_list c size head fuel nx

/-- The `for (; index < NUM_FREE_LISTS; index++)` loop of `get_fit_block`,
with `n` lists left to visit. -/
def scan_lists (c : Config) (fuel size : Nat) : Nat → Nat → M Nat
  | 0, _ => ret 0
  | n + 1, index =>
    let head := head_addr c index
    bnd (GET c (NEXT_ADDR head)) fun curr =>
    bnd (scan_list c size head fuel curr) fun r =>
    match r with
    | some b => ret b
    | none => scan_lists c fuel size n (index + 1)

def get_fit_block (c : Config) (fuel size : Nat) : M Nat :=
  if size < MIN_BLOCK_SIZE then ret 0 else
  let index := class_index c size
  scan_lists c fuel size (c.NUM_FREE_LISTS - index) index

/-- The first `if` of `coalesce`: merge with the left neighbour when it is
not null and free; the result is the new value of `block`. -/
def coalesce_left (c : Config) (block left : Nat) : M Nat :=
  if left = 0 then ret block else
  bnd (IS_ALLOC c (HDR_ADDR left)) fun al =>
  if al ≠ 0 then ret block else
  bnd (remove_free_list c left) fun _ =>
  bnd (IS_PREV_ALLOC c (HDR_ADDR left)) fun flags =>
  bnd (GET_SIZE c (HDR_ADDR left)) fun s1 =>
  bnd (GET_SIZE c (HDR_ADDR block)) fun s2 =>
  bnd (set_header_footer c left (add64 s1 s2) flags) fun _ =>
  ret left

/-- The second `if` of `coalesce`: merge with the right neighbour when it is
not null and free. -/
def coalesce_right (c : Config) (block right : Nat) : M Unit :=
  if right = 0 then ret () else
  bnd (IS_ALLOC c (HDR_ADDR right)) fun al =>
  if al ≠ 0 then ret () else
  bnd (remove_free_list c right) fun _ =>
  bnd (IS_PREV_ALLOC c (HDR_ADDR block)) fun flags =>
  bnd (GET_SIZE c (HDR_ADDR block)) fun s1 =>
  bnd (GET_SIZE c (HDR_ADDR right)) fun s2 =>
  set_header_footer c block (add64 s1 s2) flags

def coalesce (c : Config) (block : Nat) : M Nat :=
  if block = 0 then ret 0 else
  bnd (get_prev_block c block) fun left =>
  bnd (get_next_block c block) fun right =>
  bnd (coalesce_left c block left) fun block1 =>
  bnd (coalesce_right c block1 right) fun _ =>
  ret block1

def split_block (c : Config) (block size : Nat) : M Nat :=
  bnd (GET_SIZE c (HDR_ADDR block)) fun total_size =>
  let next_size := sub64 total_size size
  if next_size < MIN_BLOCK_SIZE then
    bnd (IS_PREV_ALLOC c (HDR_ADDR block)) fun pa =>
    bnd (set_header_footer c block total_size (2 ||| pa)) fun _ =>
    ret block
  else
    bnd (IS_PREV_ALLOC c (HDR_ADDR block)) fun pa =>
    bnd (set_header_footer c block size (2 ||| pa)) fun _ =>
    bnd (get_next_block c block) fun new_block =>
    bnd (set_header_footer c new_block next_size 1) fun _ =>
    bnd (insert_free_list c new_block) fun _ =>
    ret block

/-- The loop of `init_heap` that makes every list head a sentinel: `n`
iterations remain, `i` is the loop variable. -/
def init_heads (c : Config) : Nat → Nat → M Unit
  | 0, _ => ret ()
  | n + 1, i =>
    bnd (PUT c (PREV_ADDR (head_addr c i)) (head_addr c i)) fun _ =>
    bnd (PUT c (NEXT_ADDR (head_addr c i)) (head_addr c i)) fun _ =>
    init_heads c n (i + 1)

def init_heap (c : Config) : M Unit :=
  bnd (sf_mem_grow c) fun init =>
  if init = 0 then ret () else
  bnd (sf_mem_start c) fun prologue =>
  bnd (PUT c (HDR_ADDR prologue) (PACK MIN_BLOCK_SIZE 1 1)) fun _ =>
  bnd (sf_mem_end c) fun e =>
  bnd (PUT c (HDR_ADDR (sub64 e DSIZE)) (PACK 0 1 0)) fun _ =>
  bnd (GET_SIZE c (HDR_ADDR prologue)) fun psz =>
  let wilderness_block := add64 prologue psz
  bnd (GET_SIZE c (HDR_ADDR prologue)) fun psz2 =>
  let wilderness_size := sub64 (sub64 c.PAGE_SZ psz2) WSIZE
  bnd (set_header_footer c wilderness_block wilderness_size 1) fun _ =>
  bnd (init_heads c c.NUM_FREE_LISTS 0) fun _ =>
  let last := head_addr c (c.NUM_FREE_LISTS - 1)
  bnd (PUT c (PREV_ADDR last) wilderness_block) fun _ =>
  bnd (PUT c (NEXT_ADDR last) wilderness_block) fun _ =>
  bnd (PUT c (PREV_ADDR wilderness_block) last) fun _ =>
  bnd (PUT c (NEXT_ADDR wilderness_block) last) fun _ =>
  set_init true

/-- The page loop of `expand_heap` with `n` iterations left; `false` when the
loop was left by the `return` after a failed `sf_mem_grow`. -/
def expand_loop (c : Config) : Nat → M Bool
  | 0 => ret true
  | n + 1 =>
    bnd (sf_mem_grow c) fun new_page =>
    if new_page = 0 then bnd (set_errno ENOMEM) fun _ => ret false else
    let tmp := sub64 new_page DSIZE
    bnd (set_header_footer c tmp c.PAGE_SZ 0) fun _ =>
    bnd (sf_mem_end c) fun e =>
    bnd (PUT c (HDR_ADDR (sub64 e DSIZE)) (PACK 0 1 0)) fun _ =>
    bnd (coalesce c tmp) fun tmp1 =>
    bnd (insert_free_list c tmp1) fun _ =>
    expand_loop c n

def expand_heap (c : Config) (size : Nat) : M Unit :=
  bnd (GET c (NEXT_ADDR (head_addr c (c.NUM_FREE_LISTS - 1)))) fun wilderness =>
  bnd (GET_SIZE c (HDR_ADDR wilderness)) fun wild_size =>
  let pages := add64 (sub64 size wild_size) 4095 / 4096
  bnd (expand_loop c pages) fun completed =>
  if completed then
    bnd (sf_mem_end c) fun e => PUT c (HDR_ADDR (sub64 e DSIZE)) (PACK 0 1 0)
  else ret ()

/-! ## The three entry points -/

/-- Lines 75-80 of `sf_malloc`: unlink the chosen block, split it, return the
payload address. -/
def malloc_finish (c : Config) (block aligned_size : Nat) : M Nat :=
  bnd (remove_free_list c block) fun _ =>
  bnd (split_block c block aligned_size) fun block1 =>
  ret (add64 block1 DSIZE)

def sf_malloc (c : Config) (fuel size : Nat) : M Nat :=
  bnd get_init fun init =>
  bnd (if init then ret () else init_heap c) fun _ =>
  if size = 0 then ret 0 else
  let aligned_size := get_aligned_size size
  bnd (get_fit_block c fuel aligned_size) fun block =>
  if block = 0 then
    bnd (expand_heap c aligned_size) fun _ =>
    bnd (get_fit_block c fuel aligned_size) fun block2 =>
    if block2 = 0 then bnd (set_errno ENOMEM) fun _ => ret 0
    else malloc_finish c block2 aligned_size
  else malloc_finish c block aligned_size

/-- The statement `next->header &= ~0x1` of `sf_free`, guarded by
`next != NULL`. -/
def clear_prev_alloc (c : Config) (next : Nat) : M Unit :=
  if next = 0 then ret () else
  bnd (GET c (HDR_ADDR next)) fun x => PUT c (HDR_ADDR next) (x &&& 0xFFFFFFFFFFFFFFFE)

def sf_free (c : Config) (pp : Nat) : M Unit :=
  if pp = 0 then do_abort else
  let bp := sub64 pp DSIZE
  bnd (validate_pointer c bp) fun v =>
  if v = false then do_abort else
  bnd (GET_SIZE c (HDR_ADDR bp)) fun sz =>
  bnd (IS_PREV_ALLOC c (HDR_ADDR bp)) fun pa =>
  bnd (set_header_footer c bp sz (0 ||| pa)) fun _ =>
  bnd (get_next_block c bp) fun next =>
  bnd (clear_prev_alloc c next) fun _ =>
  bnd (coalesce c bp) fun bp1 =>
  insert_free_list c bp1

/-- The call `memcpy(dst, src, 8 * n)`, word by word. -/
def memcpy (c : Config) : Nat → Nat → Nat → M Unit
  | 0, _, _ => ret ()
  | n + 1, dst, src =>
    bnd (GET c src) fun x =>
    bnd (PUT c dst x) fun _ =>
    memcpy c n (add64 dst 8) (add64 src 8)

def sf_realloc (c : Config) (fuel pp rsize : Nat) : M Nat :=
  let bp := sub64 pp DSIZE
  bnd (GET_SIZE c (HDR_ADDR bp)) fun old_size =>
  bnd (validate_pointer c bp) fun v =>
  if v = false then do_abort else
  let new_size := get_aligned_size rsize
  if rsize = 0 then bnd (sf_free c pp) fun _ => ret 0 else
  if new_size = old_size then ret pp
  else if new_size > old_size then
    bnd (sf_malloc c fuel rsize) fun new_pp =>
    if new_pp = 0 then ret 0 else
    bnd (memcpy c (sub64 old_size DSIZE / 8) new_pp pp) fun _ =>
    bnd (sf_free c pp) fun _ =>
    ret new_pp
  else if sub64 old_size new_size ≥ MIN_BLOCK_SIZE then
    let block_after := add64 bp new_size
    bnd (IS_PREV_ALLOC c (HDR_ADDR bp)) fun pa =>
    bnd (set_header_footer c bp new_size (2 ||| pa)) fun _ =>
    bnd (set_header_footer c block_after (sub64 old_size new_size) 1) fun _ =>
    bnd (coalesce c block_after) fun b =>
    bnd (insert_free_list c b) fun _ =>
    ret pp
  else ret pp

/-! ## Observations used by the scenarios -/

/-- A process before the first call: no page, zeroed globals, zeroed memory. -/
def fresh : Heap := { mem := fun _ => 0, pages := 0, heap_is_init := false, sf_errno := 0 }

/-- Configuration used in the scenarios: `K` free lists and pages of 4096
bytes (the page size that `expand_heap` hard-codes). -/
def cfgK (K : Nat) : Config :=
  { NUM_FREE_LISTS := K, PAGE_SZ := 4096, mem_start := 0x100000, heads := 0x4000,
    max_pages := 8 }

/-- The scenario configuration with ten free lists. -/
def cfg : Config := cfgK 10

/-- The scenario configuration with a provider that cannot give a single page. -/
def cfg_exhausted : Config := { cfg with max_pages := 0 }

/-- The scenario configuration with a provider that gives one page only. -/
def cfg_one_page : Config := { cfg with max_pages := 1 }

/-- The computation returned normally, with a result and a heap satisfying `P`. -/
inductive Returns {α : Type} : Outcome α → (α → Heap → Prop) → Prop where
  | intro {a : α} {h : Heap} {P : α → Heap → Prop} (hp : P a h) : Returns (Outcome.ok a h) P

instance instDecidableReturns {α : Type} (o : Outcome α) (P : α → Heap → Prop)
    [inst : ∀ a h, Decidable (P a h)] : Decidable (Returns o P) :=
  match o with
  | Outcome.ok a h =>
    match inst a h with
    | isTrue hp => isTrue (Returns.intro hp)
    | isFalse hn => isFalse (fun r => match r with | Returns.intro hp => hn hp)
  | Outcome.abort => isFalse (fun r => nomatch r)
  | Outcome.fault => isFalse (fun r => nomatch r)
  | Outcome.timeout => isFalse (fun r => nomatch r)

def isAbort {α : Type} : Outcome α → Bool
  | Outcome.abort => true
  | _ => false

def isFault {α : Type} : Outcome α → Bool
  | Outcome.fault => true
  | _ => false

/-- Size field of the header of the block whose payload starts at `p`. -/
def payload_block_size (h : Heap) (p : Nat) : Nat := size_of (h.mem (sub64 p 8))

/-- The blocks linked after `curr` in the list of the sentinel `head`, in list
order; `none` when the walk does not come back to the sentinel within `fuel`
steps, or meets a block whose link is not 8-aligned or lies outside the
arena and the sentinel array. -/
def list_blocks (c : Config) (h : Heap) (head : Nat) : Nat → Nat → Option (List Nat)
  | 0, _ => none
  | fuel + 1, curr =>
    if curr = head then some []
    else if aligned_mapped c h (NEXT_ADDR curr) then
      (list_blocks c h head fuel (h.mem (NEXT_ADDR curr))).map (fun l => curr :: l)
    else none

/-- The blocks linked in `sf_free_list_heads[i]`. -/
def free_list (c : Config) (h : Heap) (fuel i : Nat) : Option (List Nat) :=
  list_blocks c h (head_addr c i) fuel (h.mem (NEXT_ADDR (head_addr c i)))

/-- Five valid calls: two allocations, release of the first, an allocation
that reuses it exactly, then the release of the second; the result is the
address passed to the last call. -/
def reuse_then_free : M Nat :=
  bnd (sf_malloc cfg 8 24) fun a =>
  bnd (sf_malloc cfg 8 24) fun b =>
  bnd (sf_free cfg a) fun _ =>
  bnd (sf_malloc cfg 8 24) fun _ =>
  ret b

/-- A 24-byte allocation whose three payload words are written by the caller
and which is then grown to 100 bytes; the result is the old and the new
address. -/
def grow_with_payload : M (Nat × Nat) :=
  bnd (sf_malloc cfg 8 24) fun p =>
  bnd (PUT cfg p 0x1111) fun _ =>
  bnd (PUT cfg (p + 8) 0x2222) fun _ =>
  bnd (PUT cfg (p + 16) 0x3333) fun _ =>
  bnd (sf_realloc cfg 8 p 100) fun q =>
  ret (p, q)

/-- Eight valid calls that leave a free 32-byte block directly before a free
64-byte block (the shrinking `sf_realloc` does not clear the previous-allocated
bit of the block after the remainder) and a second free 64-byte block. -/
def adjacent_free_setup : M Unit :=
  bnd (sf_malloc cfg 8 56) fun a =>
  bnd (sf_malloc cfg 8 56) fun b =>
  bnd (sf_malloc cfg 8 24) fun _ =>
  bnd (sf_malloc cfg 8 56) fun y =>
  bnd (sf_malloc cfg 8 24) fun _ =>
  bnd (sf_free cfg y) fun _ =>
  bnd (sf_realloc cfg 8 a 24) fun _ =>
  sf_free cfg b

/-- On the heap built by `adjacent_free_setup`: allocate 24 bytes, release
them, allocate 24 bytes again; the result is the first address, the size of
its block and the second address. -/
def round_trip_24 : M (Nat × Nat × Nat) :=
  bnd adjacent_free_setup fun _ =>
  bnd (sf_malloc cfg 8 24) fun p =>
  bnd (fun h => Outcome.ok (payload_block_size h p) h) fun sz =>
  bnd (sf_free cfg p) fun _ =>
  bnd (sf_malloc cfg 8 24) fun q =>
  ret (p, sz, q)

/-- Two allocations of 100 bytes on a fresh heap, both released in order; the
result is the two addresses. -/
def two_alloc_two_free (c : Config) : M (Nat × Nat) :=
  bnd (sf_malloc c 8 100) fun a =>
  bnd (sf_malloc c 8 100) fun b =>
  bnd (sf_free c a) fun _ =>
  bnd (sf_free c b) fun _ =>
  ret (a, b)

/-- Concatenation of the free lists `0` to `n - 1`; `none` when some walk
fails. -/
def linked_upto (c : Config) (h : Heap) (fuel : Nat) : Nat → Option (List Nat)
  | 0 => some []
  | n + 1 =>
    match linked_upto c h fuel n, free_list c h fuel n with
    | some l, some r => some (l ++ r)
    | _, _ => none

/-- Concatenation of all free lists; `none` when some walk fails. -/
def linked_blocks (c : Config) (h : Heap) (fuel : Nat) : Option (List Nat) :=
  linked_upto c h fuel c.NUM_FREE_LISTS

/-- The heap a computation leaves behind (`fresh` when it did not return). -/
def heap_after {α : Type} (o : Outcome α) : Heap :=
  match o with
  | Outcome.ok _ h => h
  | _ => fresh

def isOk {α : Type} : Outcome α → Bool
  | Outcome.ok _ _ => true
  | _ => false

/-- The heap after the first call `sf_malloc(24)`, which returns `0x100030`. -/
def live_heap : Heap := heap_after (sf_malloc cfg 8 24 fresh)

/-! ## Relations used in the proofs -/

/-- A computation that never changes the heap. -/
def ReadOnly {α : Type} (m : M α) : Prop :=
  ∀ h a h1, m h = Outcome.ok a h1 → h1 = h

/-- Assumptions on the constants that `sfmm.c` takes from outside: at least two
free lists (and few enough for the `int` bounds of the class loop), pages that
are a multiple of 16 bytes and can hold the prologue, one minimum block, a
splittable remainder and the epilogue, a 16-aligned arena start, an 8-aligned
sentinel array, both below `2 ^ 64` and apart from each other, and a provider
that can give at least one page. -/
def Config.sane (c : Config) : Prop :=
  2 ≤ c.NUM_FREE_LISTS ∧ c.NUM_FREE_LISTS ≤ 27 ∧
  c.PAGE_SZ % 16 = 0 ∧ 112 ≤ c.PAGE_SZ ∧
  c.mem_start % 16 = 0 ∧ 0 < c.mem_start ∧
  c.mem_start + c.PAGE_SZ < 18446744073709551616 ∧
  c.heads % 8 = 0 ∧
  c.heads + 32 * c.NUM_FREE_LISTS < 18446744073709551616 ∧
  (c.heads + 32 * c.NUM_FREE_LISTS ≤ c.mem_start ∨ c.mem_start + c.PAGE_SZ ≤ c.heads) ∧
  1 ≤ c.max_pages

instance instDecidableSane (c : Config) : Decidable c.sane := by
  unfold Config.sane
  infer_instance

/-- The heap that `init_heap` leaves: one page, the prologue and epilogue
headers, the first free block between them with header and footer, every
sentinel but the last linked to itself, and the last sentinel and the first
free block linked to each other. -/
def InitState (c : Config) (h : Heap) : Prop :=
  h.pages = 1 ∧ h.heap_is_init = true ∧
  h.mem (c.mem_start + 8) = 35 ∧
  h.mem (c.mem_start + c.PAGE_SZ - 8) = 2 ∧
  h.mem (c.mem_start + 40) = (c.PAGE_SZ - 40) ||| 1 ∧
  h.mem (c.mem_start + c.PAGE_SZ - 16) = (c.PAGE_SZ - 40) ||| 1 ∧
  h.mem (c.mem_start + 48) = c.heads + 32 * (c.NUM_FREE_LISTS - 1) ∧
  h.mem (c.mem_start + 56) = c.heads + 32 * (c.NUM_FREE_LISTS - 1) ∧
  (∀ j, j < c.NUM_FREE_LISTS - 1 →
    h.mem (c.heads + 32 * j + 16) = c.heads + 32 * j ∧
    h.mem (c.heads + 32 * j + 24) = c.heads + 32 * j) ∧
  h.mem (c.heads + 32 * (c.NUM_FREE_LISTS - 1) + 16) = c.mem_start + 32 ∧
  h.mem (c.heads + 32 * (c.NUM_FREE_LISTS - 1) + 24) = c.mem_start + 32

instance instDecidableInitState (c : Config) (h : Heap) : Decidable (InitState c h) := by
  unfold InitState
  infer_instance

/-- The heap after the first free block has been unlinked: as `InitState`, but
every sentinel is linked to itself and the links of the block are null. -/
def Unlinked (c : Config) (h : Heap) : Prop :=
  h.pages = 1 ∧ h.heap_is_init = true ∧
  h.mem (c.mem_start + 8) = 35 ∧
  h.mem (c.mem_start + c.PAGE_SZ - 8) = 2 ∧
  h.mem (c.mem_start + 40) = (c.PAGE_SZ - 40) ||| 1 ∧
  h.mem (c.mem_start + c.PAGE_SZ - 16) = (c.PAGE_SZ - 40) ||| 1 ∧
  (∀ j, j < c.NUM_FREE_LISTS →
    h.mem (c.heads + 32 * j + 16) = c.heads + 32 * j ∧
    h.mem (c.heads + 32 * j + 24) = c.heads + 32 * j)

/-- The heap after the first `sf_malloc(24)`: the prologue, an allocated block
of 32 bytes, one free block of `PAGE_SZ - 80` bytes with header and footer up
to the epilogue, linked both ways with the sentinel of its class, and every
other sentinel linked to itself. -/
def AfterFirst (c : Config) (h : Heap) : Prop :=
  h.pages = 1 ∧ h.heap_is_init = true ∧
  h.mem (c.mem_start + 8) = 35 ∧
  h.mem (c.mem_start + 40) = 35 ∧
  h.mem (c.mem_start + 72) = (c.PAGE_SZ - 80) ||| 1 ∧
  h.mem (c.mem_start + c.PAGE_SZ - 16) = (c.PAGE_SZ - 80) ||| 1 ∧
  h.mem (c.mem_start + c.PAGE_SZ - 8) = 2 ∧
  h.mem (c.mem_start + 80) = c.heads + 32 * class_index c (c.PAGE_SZ - 80) ∧
  h.mem (c.mem_start + 88) = c.heads + 32 * class_index c (c.PAGE_SZ - 80) ∧
  h.mem (c.heads + 32 * class_index c (c.PAGE_SZ - 80) + 16) = c.mem_start + 64 ∧
  h.mem (c.heads + 32 * class_index c (c.PAGE_SZ - 80) + 24) = c.mem_start + 64 ∧
  (∀ j, j < c.NUM_FREE_LISTS → j ≠ class_index c (c.PAGE_SZ - 80) →
    h.mem (c.heads + 32 * j + 16) = c.heads + 32 * j)

/-! ## Observations on the arena and on the index -/

/-- Words stored by the caller at consecutive 8-byte offsets from `p`. -/
def caller_writes (c : Config) : Nat → List Nat → M Unit
  | _, [] => ret ()
  | p, v :: vs => bnd (PUT c p v) fun _ => caller_writes c (p + 8) vs

/-- The blocks of the arena in address order, found as the allocator finds
them: from the block pointer `b`, the next block starts `GET_SIZE` of the
header at `b + 8` bytes further, up to the epilogue, whose pointer is
`mem_end - 16`; `none` when a size is 0, the walk passes the epilogue, or the
fuel runs out. -/
def arena_blocks (c : Config) (h : Heap) : Nat → Nat → Option (List Nat)
  | 0, _ => none
  | fuel + 1, b =>
    if b + 16 = mem_end c h then some []
    else if b + 16 > mem_end c h ∨ size_of (h.mem (b + 8)) = 0 then none
    else (arena_blocks c h fuel (b + size_of (h.mem (b + 8)))).map (fun l => b :: l)

/-- The blocks after the prologue, up to the epilogue. -/
def arena (c : Config) (h : Heap) (fuel : Nat) : Option (List Nat) :=
  arena_blocks c h fuel (c.mem_start + 32)

/-- In a list of consecutive blocks, the previous-allocated bit of every block
but the first equals the allocated bit of the block before it. -/
def tags_match (h : Heap) : List Nat → Bool
  | a :: b :: l =>
    (prev_alloc_of (h.mem (b + 8)) == alloc_of (h.mem (a + 8))) && tags_match h (b :: l)
  | _ => true

/-- Some two consecutive blocks of the list are both free. -/
def free_neighbours (h : Heap) : List Nat → Bool
  | a :: b :: l =>
    (alloc_of (h.mem (a + 8)) == 0 && alloc_of (h.mem (b + 8)) == 0) ||
      free_neighbours h (b :: l)
  | _ => false

/-- The blocks of a list whose allocated bit is clear. -/
def free_blocks (h : Heap) (l : List Nat) : List Nat :=
  l.filter fun b => alloc_of (h.mem (b + 8)) == 0

/-- The list `sf_free_list_heads[j]` can be walked with the given fuel, and
every block on it is non-null, has an 8-aligned header inside the arena or the
sentinel array and, unless `j` is the last list, has a size of class `j`. -/
def list_ok (c : Config) (h : Heap) (fuel j : Nat) : Bool :=
  match free_list c h fuel j with
  | some l => l.all fun b =>
      b != 0 && aligned_mapped c h (HDR_ADDR b) &&
        (j + 1 == c.NUM_FREE_LISTS || class_index c (size_of (h.mem (HDR_ADDR b))) == j)
  | none => false

/-- The part of the free-list membership invariant that `get_fit_block` relies
on: `list_ok` for every list. -/
def index_ok (c : Config) (h : Heap) (fuel : Nat) : Prop :=
  ∀ j, j < c.NUM_FREE_LISTS → list_ok c h fuel j = true

instance instDecidableIndexOk (c : Config) (h : Heap) (fuel : Nat) :
    Decidable (index_ok c h fuel) := by
  unfold index_ok
  infer_instance

/-- Size field of the header of the block `b`. -/
def block_size (h : Heap) (b : Nat) : Nat := size_of (h.mem (HDR_ADDR b))

/-- The first call `sf_malloc(4040)`, whose block takes the whole first page up
to the epilogue, followed by the caller storing the words `tail` in the last
bytes of the 4040 usable bytes; the result is the address of the allocation. -/
def full_page (tail : List Nat) : M Nat :=
  bnd (sf_malloc cfg 8 4040) fun a =>
  bnd (caller_writes cfg (a + 4040 - 8 * tail.length) tail) fun _ =>
  ret a

/-- On the heap of `full_page`: the search for 32 bytes, then `expand_heap(32)`;
the result is the address of the live allocation and the result of the
search. -/
def grow_full_page (tail : List Nat) : M (Nat × Nat) :=
  bnd (full_page tail) fun a =>
  bnd (get_fit_block cfg 8 32) fun r =>
  bnd (expand_heap cfg 32) fun _ =>
  ret (a, r)

/-- Three valid calls: allocations of 56 and 24 bytes, then the first shrunk in
place to 24 bytes; the result is the two addresses. -/
def shrink_in_place : M (Nat × Nat) :=
  bnd (sf_malloc cfg 8 56) fun a =>
  bnd (sf_malloc cfg 8 24) fun b =>
  bnd (sf_realloc cfg 8 a 24) fun _ =>
  ret (a, b)

/-- The calls of `shrink_in_place`, then the release of the second block. -/
def shrink_then_free_next : M (Nat × Nat) :=
  bnd shrink_in_place fun r =>
  bnd (sf_free cfg r.2) fun _ =>
  ret r

/-- An allocation `x` of 24 bytes and an allocation `a` of 4008 bytes fill the
first page; `x` is released; the caller stores the words `tail` in the last
bytes of the 4008 usable bytes of `a`.  The result is `x` and `a`. -/
def orphan_setup (tail : List Nat) : M (Nat × Nat) :=
  bnd (sf_malloc cfg 8 24) fun x =>
  bnd (sf_malloc cfg 8 4008) fun a =>
  bnd (sf_free cfg x) fun _ =>
  bnd (caller_writes cfg (a + 4008 - 8 * tail.length) tail) fun _ =>
  ret (x, a)

/-- The calls and writes of `orphan_setup`, then `sf_malloc(100)`; the result
is `x`, `a` and the new address. -/
def orphan_scenario (tail : List Nat) : M (Nat × Nat × Nat) :=
  bnd (orphan_setup tail) fun r =>
  bnd (sf_malloc cfg 8 100) fun p =>
  ret (r.1, r.2, p)

/-- Four words for the last 32 usable bytes of an allocation: 32, the address
of `sf_free_list_heads[0]` twice, and 32. -/
def sentinel_tail : List Nat := [32, head_addr cfg 0, head_addr cfg 0, 32]

/-- Every free block of the arena is linked exactly once in the free lists, and
every linked block is a free block of the arena; `none` when the arena or a
list cannot be walked. -/
def membership_holds (c : Config) (h : Heap) (fuel : Nat) : Option Bool :=
  match arena c h fuel, linked_blocks c h fuel with
  | some bs, some ls =>
    some ((free_blocks h bs).all (fun b => ls.count b == 1) &&
      ls.all (fun b => (free_blocks h bs).contains b))
  | _, _ => none

/-- Four valid calls: allocations of 56 and 24 bytes, release of the first, and
an allocation of 56 bytes that takes the released block whole; the result is
the second address and the last one. -/
def stale_bit_setup : M (Nat × Nat) :=
  bnd (sf_malloc cfg 8 56) fun a =>
  bnd (sf_malloc cfg 8 24) fun b =>
  bnd (sf_free cfg a) fun _ =>
  bnd (sf_malloc cfg 8 56) fun c =>
  ret (b, c)

/-- The four words a caller stores in the last 32 of the 56 usable bytes of
the allocation `p`: 32, the address `p + 16` twice, and 32. -/
def forge_tail (p : Nat) : M Unit :=
  caller_writes cfg (p + 24) [32, p + 16, p + 16, 32]

/-- The calls of `stale_bit_setup`, the caller's writes of `forge_tail` into
the live 56-byte allocation, the release of the 24-byte allocation, and a new
allocation of 24 bytes; the result is the live 56-byte allocation and the new
address. -/
def overlap_scenario : M (Nat × Nat) :=
  bnd stale_bit_setup fun r =>
  bnd (forge_tail r.2) fun _ =>
  bnd (sf_free cfg r.1) fun _ =>
  bnd (sf_malloc cfg 8 24) fun d =>
  ret (r.2, d)

/-- The heap after `stale_bit_setup`, which returns `(0x100070, 0x100030)`. -/
def stale_heap : Heap := heap_after (stale_bit_setup fresh)

/-- The heap `stale_heap` after the caller's writes into the allocation at
`0x100030`. -/
def forged_heap : Heap := heap_after (forge_tail 0x100030 stale_heap)

/-- The calls of `stale_bit_setup`, then the caller stores in the last 32 of
the 56 usable bytes of the live 56-byte allocation the words 32, 0, 0, 32; the
result is the two live addresses of `stale_bit_setup`. -/
def null_links_setup : M (Nat × Nat) :=
  bnd stale_bit_setup fun r =>
  bnd (caller_writes cfg (r.2 + 24) [32, 0, 0, 32]) fun _ =>
  ret r

/-- Five valid calls and five caller writes into live allocations: allocations
`a` of 56, `b` of 24 and `g` of 17000 bytes, the release of `a`, an allocation
`c` of 56 bytes that takes the released block whole; then the caller stores in
the last 32 of the 56 usable bytes of `c` the words 32, `c + 32`,
`&sf_free_list_heads[0] - 13` and 32, and at offset 16328 of the 17000 usable
bytes of `g` the word 2.  The result is `b`, `c` and `g`. -/
def double_release_setup : M (Nat × Nat × Nat) :=
  bnd (sf_malloc cfg 8 56) fun a =>
  bnd (sf_malloc cfg 8 24) fun b =>
  bnd (sf_malloc cfg 8 17000) fun g =>
  bnd (sf_free cfg a) fun _ =>
  bnd (sf_malloc cfg 8 56) fun c =>
  bnd (caller_writes cfg (c + 24) [32, c + 32, head_addr cfg 0 - 13, 32]) fun _ =>
  bnd (caller_writes cfg (g + 16328) [2]) fun _ =>
  ret (b, c, g)

/-- The heap after `adjacent_free_setup`. -/
def setup_heap : Heap := heap_after (adjacent_free_setup fresh)

/-! ## Basic facts -/

theorem WORD_eq : WORD = 18446744073709551616 := by decide

theorem bnd_ok {α β : Type} {m : M α} {f : α → M β} {h h2 : Heap} {b : β}
    (e : bnd m f h = Outcome.ok b h2) :
    ∃ a h1, m h = Outcome.ok a h1 ∧ f a h1 = Outcome.ok b h2 := by
  unfold bnd at e
  cases hm : m h with
  | ok a h1 => rw [hm] at e; exact ⟨a, h1, rfl, e⟩
  | abort => rw [hm] at e; cases e
  | fault => rw [hm] at e; cases e
  | timeout => rw [hm] at e; cases e

theorem ret_ok {α : Type} {a b : α} {h h1 : Heap} (e : ret a h = Outcome.ok b h1) :
    b = a ∧ h1 = h := by
  unfold ret at e
  cases e
  exact ⟨rfl, rfl⟩

theorem GET_ok {c : Config} {a v : Nat} {h h1 : Heap} (e : GET c a h = Outcome.ok v h1) :
    h1 = h ∧ v = load h a ∧ mapped c h a = true := by
  unfold GET at e
  split at e
  · cases e; exact ⟨rfl, rfl, by assumption⟩
  · cases e

theorem aligned_mapped_iff {c : Config} {h : Heap} {a : Nat} :
    aligned_mapped c h a = true ↔ a % 8 = 0 ∧ mapped c h a = true := by
  unfold aligned_mapped
  simp only [Bool.and_eq_true, beq_iff_eq]

theorem mapped_mod8 {c : Config} {h : Heap} {a : Nat} (hm : aligned_mapped c h a = true) :
    a % 8 = 0 :=
  (aligned_mapped_iff.mp hm).1

theorem mapped_pages {c : Config} {h h1 : Heap} (hp : h1.pages = h.pages) (a : Nat) :
    aligned_mapped c h1 a = aligned_mapped c h a := by
  unfold aligned_mapped mapped mem_end
  rw [hp]

theorem size_of_mod16 (x : Nat) : size_of x % 16 = 0 := by
  have h1 := Nat.and_pow_two_sub_one_eq_mod (size_of x) 4
  have h2 : size_of x &&& (2 ^ 4 - 1) = 0 := by
    unfold size_of SIZE_MASK
    rw [Nat.and_assoc]
    have : (0xFFFFFFFFFFFFFFF0 : Nat) &&& (2 ^ 4 - 1) = 0 := by decide
    rw [this, Nat.and_zero]
  omega

theorem add64_mod8 {p k : Nat} (hk : k % 8 = 0) (h : add64 p k % 8 = 0) : p % 8 = 0 := by
  unfold add64 at h
  rw [WORD_eq] at h
  omega

theorem sf_mem_start_ok {c : Config} {v : Nat} {h h1 : Heap}
    (e : sf_mem_start c h = Outcome.ok v h1) : h1 = h ∧ v = c.mem_start := by
  unfold sf_mem_start at e
  cases e
  exact ⟨rfl, rfl⟩

theorem sf_mem_end_ok {c : Config} {v : Nat} {h h1 : Heap}
    (e : sf_mem_end c h = Outcome.ok v h1) : h1 = h ∧ v = mem_end c h := by
  unfold sf_mem_end at e
  cases e
  exact ⟨rfl, rfl⟩

theorem bnd_of_ok {α β : Type} {m : M α} {f : α → M β} {h h1 : Heap} {a : α}
    (e : m h = Outcome.ok a h1) : bnd m f h = f a h1 := by
  unfold bnd
  rw [e]

theorem GET_eval {c : Config} {a : Nat} {h : Heap} (hm : aligned_mapped c h a = true) :
    GET c a h = Outcome.ok (h.mem a) h := by
  obtain ⟨h8, hr⟩ := aligned_mapped_iff.mp hm
  unfold GET load
  rw [if_pos hr, if_pos h8]

theorem GET_SIZE_eval {c : Config} {a : Nat} {h : Heap} (hm : aligned_mapped c h a = true) :
    GET_SIZE c a h = Outcome.ok (size_of (h.mem a)) h := by
  unfold GET_SIZE
  rw [bnd_of_ok (GET_eval hm)]
  rfl

theorem IS_ALLOC_eval {c : Config} {a : Nat} {h : Heap} (hm : aligned_mapped c h a = true) :
    IS_ALLOC c a h = Outcome.ok (alloc_of (h.mem a)) h := by
  unfold IS_ALLOC
  rw [bnd_of_ok (GET_eval hm)]
  rfl

theorem FTR_ADDR_eval {c : Config} {b : Nat} {h : Heap} (hm : aligned_mapped c h (HDR_ADDR b) = true) :
    FTR_ADDR c b h = Outcome.ok (add64 b (size_of (h.mem (HDR_ADDR b)))) h := by
  unfold FTR_ADDR
  rw [bnd_of_ok (GET_SIZE_eval hm)]
  rfl

theorem ro_ret {α : Type} (a : α) : ReadOnly (ret a) := by
  intro h b h1 e
  exact (ret_ok e).2

theorem ro_bnd {α β : Type} {m : M α} {f : α → M β} (hm : ReadOnly m)
    (hf : ∀ a, ReadOnly (f a)) : ReadOnly (bnd m f) := by
  intro h b h2 e
  obtain ⟨a, h1, e1, e2⟩ := bnd_ok e
  have := hm h a h1 e1
  subst this
  exact hf a _ b h2 e2

theorem ro_ite {α : Type} (p : Prop) [Decidable p] {m1 m2 : M α} (h1 : ReadOnly m1)
    (h2 : ReadOnly m2) : ReadOnly (if p then m1 else m2) := by
  split
  · exact h1
  · exact h2

theorem ro_GET (c : Config) (a : Nat) : ReadOnly (GET c a) := by
  intro h v h1 e
  exact (GET_ok e).1

theorem ro_GET_SIZE (c : Config) (a : Nat) : ReadOnly (GET_SIZE c a) :=
  ro_bnd (ro_GET c a) (fun _ => ro_ret _)

theorem ro_IS_ALLOC (c : Config) (a : Nat) : ReadOnly (IS_ALLOC c a) :=
  ro_bnd (ro_GET c a) (fun _ => ro_ret _)

theorem ro_IS_PREV_ALLOC (c : Config) (a : Nat) : ReadOnly (IS_PREV_ALLOC c a) :=
  ro_bnd (ro_GET c a) (fun _ => ro_ret _)

theorem ro_FTR_ADDR (c : Config) (b : Nat) : ReadOnly (FTR_ADDR c b) :=
  ro_bnd (ro_GET_SIZE c _) (fun _ => ro_ret _)

theorem ro_sf_mem_start (c : Config) : ReadOnly (sf_mem_start c) := by
  intro h v h1 e
  exact (sf_mem_start_ok e).1

theorem ro_sf_mem_end (c : Config) : ReadOnly (sf_mem_end c) := by
  intro h v h1 e
  exact (sf_mem_end_ok e).1

theorem ro_get_prev_block (c : Config) (b : Nat) : ReadOnly (get_prev_block c b) := by
  unfold get_prev_block
  refine ro_bnd (ro_IS_PREV_ALLOC c _) (fun _ => ro_ite _ (ro_ret _) ?_)
  refine ro_bnd (ro_GET_SIZE c _) (fun _ => ro_bnd (ro_sf_mem_start c) (fun _ => ?_))
  exact ro_ite _ (ro_ret _) (ro_ret _)

theorem validate_pointer_ro (c : Config) (bp : Nat) : ReadOnly (validate_pointer c bp) := by
  unfold validate_pointer
  refine ro_ite _ (ro_ret _) (ro_ite _ (ro_ret _) ?_)
  refine ro_bnd (ro_GET_SIZE c _) (fun _ => ro_ite _ (ro_ret _) ?_)
  refine ro_bnd (ro_GET_SIZE c _) (fun _ => ro_ite _ (ro_ret _) ?_)
  refine ro_bnd (ro_sf_mem_start c) (fun _ => ro_ite _ (ro_ret _) ?_)
  refine ro_bnd (ro_FTR_ADDR c _) (fun _ => ro_bnd (ro_sf_mem_end c) (fun _ => ?_))
  refine ro_ite _ (ro_ret _) ?_
  refine ro_bnd (ro_IS_ALLOC c _) (fun _ => ro_ite _ (ro_ret _) ?_)
  refine ro_bnd (ro_IS_PREV_ALLOC c _) (fun _ => ro_ite _ ?_ (ro_ret _))
  refine ro_bnd (ro_get_prev_block c _) (fun _ => ro_ite _ (ro_ret _) ?_)
  exact ro_bnd (ro_IS_ALLOC c _) (fun _ => ro_ite _ (ro_ret _) (ro_ret _))

theorem eq_abort_of {α : Type} {o : Outcome α} (h : isAbort o = true) : o = Outcome.abort := by
  cases o <;> first | rfl | cases h

theorem eq_fault_of {α : Type} {o : Outcome α} (h : isFault o = true) : o = Outcome.fault := by
  cases o <;> first | rfl | cases h

theorem ok_of_isOk {o : Outcome Unit} (h : isOk o = true) :
    o = Outcome.ok () (heap_after o) := by
  cases o <;> first | rfl | cases h

theorem bnd_of_abort {α β : Type} {m : M α} {f : α → M β} {h : Heap}
    (e : m h = Outcome.abort) : bnd m f h = Outcome.abort := by
  unfold bnd
  rw [e]

theorem bnd_of_fault {α β : Type} {m : M α} {f : α → M β} {h : Heap}
    (e : m h = Outcome.fault) : bnd m f h = Outcome.fault := by
  unfold bnd
  rw [e]

theorem bnd_of_timeout {α β : Type} {m : M α} {f : α → M β} {h : Heap}
    (e : m h = Outcome.timeout) : bnd m f h = Outcome.timeout := by
  unfold bnd
  rw [e]

theorem GET_SIZE_load {c : Config} {a : Nat} {h : Heap} (hm : mapped c h a = true) :
    GET_SIZE c a h = Outcome.ok (size_of (load h a)) h := by
  have e : GET c a h = Outcome.ok (load h a) h := by
    unfold GET
    rw [if_pos hm]
  unfold GET_SIZE
  rw [bnd_of_ok e]
  rfl

theorem realloc_zero_unfold (c : Config) (fuel : Nat) (h : Heap) (pp : Nat)
    (hpp : pp ≠ 0) (hm : mapped c h (HDR_ADDR (sub64 pp DSIZE)) = true) :
    sf_realloc c fuel pp 0 h = bnd (sf_free c pp) (fun _ => ret 0) h := by
  have hfree : sf_free c pp h =
      bnd (validate_pointer c (sub64 pp DSIZE)) (fun v =>
        if v = false then do_abort else
        bnd (GET_SIZE c (HDR_ADDR (sub64 pp DSIZE))) fun sz =>
        bnd (IS_PREV_ALLOC c (HDR_ADDR (sub64 pp DSIZE))) fun pa =>
        bnd (set_header_footer c (sub64 pp DSIZE) sz (0 ||| pa)) fun _ =>
        bnd (get_next_block c (sub64 pp DSIZE)) fun next =>
        bnd (clear_prev_alloc c next) fun _ =>
        bnd (coalesce c (sub64 pp DSIZE)) fun bp1 =>
        insert_free_list c bp1) h := by
    unfold sf_free
    rw [if_neg hpp]
  unfold sf_realloc
  rw [bnd_of_ok (GET_SIZE_load hm)]
  cases hv : validate_pointer c (sub64 pp DSIZE) h with
  | ok v h2 =>
    have hh := validate_pointer_ro c _ _ _ _ hv
    subst hh
    rw [bnd_of_ok hv]
    cases v
    · have hab : sf_free c pp h2 = Outcome.abort := by
        rw [hfree, bnd_of_ok hv]
        rfl
      rw [bnd_of_abort hab]
      rfl
    · rw [if_neg (by decide), if_pos rfl]
  | abort =>
    rw [bnd_of_abort hv, bnd_of_abort (by rw [hfree]; exact bnd_of_abort hv)]
  | fault =>
    rw [bnd_of_fault hv, bnd_of_fault (by rw [hfree]; exact bnd_of_fault hv)]
  | timeout =>
    rw [bnd_of_timeout hv, bnd_of_timeout (by rw [hfree]; exact bnd_of_timeout hv)]


/-! ## Symbolic execution -/

theorem add64_eq {a b : Nat} (h : a + b < 18446744073709551616) : add64 a b = a + b := by
  unfold add64
  rw [WORD_eq]
  exact Nat.mod_eq_of_lt h

theorem sub64_eq {a b : Nat} (h1 : b ≤ a) (h2 : a < 18446744073709551616) :
    sub64 a b = a - b := by
  unfold sub64
  rw [WORD_eq]
  omega

theorem store_mem (h : Heap) (a v x : Nat) :
    (store h a v).mem x = if x = a then v else h.mem x := rfl

theorem store_same (h : Heap) (a v : Nat) : (store h a v).mem a = v := by
  rw [store_mem, if_pos rfl]

theorem store_other {h : Heap} {a v x : Nat} (hne : x ≠ a) :
    (store h a v).mem x = h.mem x := by
  rw [store_mem, if_neg hne]

theorem store_pages (h : Heap) (a v : Nat) : (store h a v).pages = h.pages := rfl

theorem store_init (h : Heap) (a v : Nat) : (store h a v).heap_is_init = h.heap_is_init := rfl

theorem mapped_store (c : Config) (h : Heap) (a v x : Nat) :
    aligned_mapped c (store h a v) x = aligned_mapped c h x := rfl

theorem PUT_eval {c : Config} {a : Nat} {h : Heap} (v : Nat) (hm : aligned_mapped c h a = true) :
    PUT c a v h = Outcome.ok () (store h a v) := by
  obtain ⟨h8, hr⟩ := aligned_mapped_iff.mp hm
  unfold PUT write
  rw [if_pos hr, if_pos h8]

theorem mapped_arena {c : Config} {h : Heap} {a : Nat} (h8 : a % 8 = 0)
    (hlo : c.mem_start ≤ a) (hhi : a + 8 ≤ c.mem_start + h.pages * c.PAGE_SZ) :
    aligned_mapped c h a = true := by
  unfold aligned_mapped mapped mem_end
  simp only [Bool.and_eq_true, Bool.or_eq_true, beq_iff_eq, decide_eq_true_eq]
  exact ⟨h8, Or.inl ⟨hlo, hhi⟩⟩

theorem mapped_heads {c : Config} {h : Heap} {a : Nat} (h8 : a % 8 = 0)
    (hlo : c.heads ≤ a) (hhi : a + 8 ≤ c.heads + 32 * c.NUM_FREE_LISTS) :
    aligned_mapped c h a = true := by
  unfold aligned_mapped mapped
  simp only [Bool.and_eq_true, Bool.or_eq_true, beq_iff_eq, decide_eq_true_eq]
  exact ⟨h8, Or.inr ⟨hlo, hhi⟩⟩

theorem size_of_eq {y : Nat} (hy : y < 18446744073709551616) : size_of y = y - y % 16 := by
  have h1 : y &&& (2 ^ 64 - 1) = y := by
    rw [Nat.and_pow_two_sub_one_eq_mod]
    exact Nat.mod_eq_of_lt hy
  have h2 : (2 ^ 64 - 1 : Nat) = SIZE_MASK ||| 15 := by decide
  have h3 : y &&& 15 = y % 16 := Nat.and_pow_two_sub_one_eq_mod y 4
  have h4 := size_of_mod16 y
  have h5 : size_of y = 2 ^ 4 * (size_of y / 16) := by omega
  have h6 : y % 16 < 2 ^ 4 := by omega
  have h7 := Nat.mul_add_lt_is_or h6 (size_of y / 16)
  rw [h2, Nat.and_or_distrib_left, h3] at h1
  have h8 : y &&& SIZE_MASK = size_of y := rfl
  rw [h8, h5, ← h7] at h1
  omega

theorem or_one_even {x : Nat} (hx : x % 2 = 0) : x ||| 1 = x + 1 := by
  have h1 : x = 2 ^ 1 * (x / 2) := by omega
  have h2 := Nat.mul_add_lt_is_or (show 1 < 2 ^ 1 by decide) (x / 2)
  rw [← h1] at h2
  exact h2.symm

theorem alloc_of_mod4 {y : Nat} (hy : y % 4 = 1) : alloc_of y = 0 := by
  unfold alloc_of
  have h1 : y &&& 3 = y % 4 := Nat.and_pow_two_sub_one_eq_mod y 2
  have h2 : y &&& 2 = (y &&& 3) &&& 2 := by
    rw [Nat.and_assoc]
    have : (3 : Nat) &&& 2 = 2 := by decide
    rw [this]
  rw [h2, h1, hy]
  rfl

theorem prev_alloc_of_odd {y : Nat} (hy : y % 2 = 1) : prev_alloc_of y = 1 := by
  unfold prev_alloc_of
  have h1 : y &&& 1 = y % 2 := Nat.and_pow_two_sub_one_eq_mod y 1
  rw [h1, hy]

theorem head_addr_eq {c : Config} {j : Nat} (hc : c.sane) (hj : j < c.NUM_FREE_LISTS) :
    head_addr c j = c.heads + 32 * j := by
  unfold Config.sane at hc
  unfold head_addr
  exact add64_eq (by omega)

theorem init_heads_eval (c : Config) (hc : c.sane) :
    ∀ n i h, i + n ≤ c.NUM_FREE_LISTS →
      ∃ h1, init_heads c n i h = Outcome.ok () h1 ∧ h1.pages = h.pages ∧
        h1.heap_is_init = h.heap_is_init ∧
        (∀ j, i ≤ j → j < i + n →
          h1.mem (c.heads + 32 * j + 16) = c.heads + 32 * j ∧
          h1.mem (c.heads + 32 * j + 24) = c.heads + 32 * j) ∧
        (∀ x, (x < c.heads + 32 * i ∨ c.heads + 32 * (i + n) ≤ x) → h1.mem x = h.mem x) := by
  intro n
  induction n with
  | zero =>
    intro i h _
    exact ⟨h, rfl, rfl, rfl, fun j h1 h2 => absurd h2 (by omega), fun _ _ => rfl⟩
  | succ n ih =>
    intro i h hi
    have hs := hc
    unfold Config.sane at hs
    have hh : head_addr c i = c.heads + 32 * i := head_addr_eq hc (by omega)
    have e1 : PREV_ADDR (head_addr c i) = c.heads + 32 * i + 24 := by
      rw [hh]
      exact add64_eq (by omega)
    have e2 : NEXT_ADDR (head_addr c i) = c.heads + 32 * i + 16 := by
      rw [hh]
      exact add64_eq (by omega)
    have m1 : aligned_mapped c h (c.heads + 32 * i + 24) = true :=
      mapped_heads (by omega) (by omega) (by omega)
    have m2 : aligned_mapped c (store h (c.heads + 32 * i + 24) (c.heads + 32 * i))
        (c.heads + 32 * i + 16) = true :=
      mapped_heads (by omega) (by omega) (by omega)
    obtain ⟨h1, r1, p1, i1, rd, fr⟩ := ih (i + 1)
      (store (store h (c.heads + 32 * i + 24) (c.heads + 32 * i))
        (c.heads + 32 * i + 16) (c.heads + 32 * i)) (by omega)
    refine ⟨h1, ?_, ?_, ?_, ?_, ?_⟩
    · unfold init_heads
      rw [e1, e2, hh, bnd_of_ok (PUT_eval _ m1), bnd_of_ok (PUT_eval _ m2)]
      exact r1
    · rw [p1]
      rfl
    · rw [i1]
      rfl
    · intro j hj1 hj2
      by_cases hji : j = i
      · subst hji
        rw [fr _ (Or.inl (by omega)), fr _ (Or.inl (by omega)), store_same,
          store_other (by omega), store_same]
        exact ⟨rfl, rfl⟩
      · exact rd j (by omega) (by omega)
    · intro x hx
      rw [fr x (by omega), store_other (by omega), store_other (by omega)]



theorem mapped_arena1 {c : Config} {h : Heap} {a : Nat} (hp : h.pages = 1) (h8 : a % 8 = 0)
    (hlo : c.mem_start ≤ a) (hhi : a + 8 ≤ c.mem_start + c.PAGE_SZ) :
    aligned_mapped c h a = true := by
  apply mapped_arena h8 hlo
  rw [hp]
  omega

theorem set_header_footer_free {c : Config} {b s f : Nat} {h : Heap}
    (hf : f &&& 2 = 0) (m1 : aligned_mapped c h (HDR_ADDR b) = true)
    (m2 : aligned_mapped c h (add64 b (size_of (s ||| f))) = true) :
    set_header_footer c b s f h =
      Outcome.ok () (store (store h (HDR_ADDR b) (s ||| f)) (add64 b (size_of (s ||| f)))
        (s ||| f)) := by
  unfold set_header_footer
  rw [bnd_of_ok (PUT_eval _ m1), if_pos hf]
  have hm : aligned_mapped c (store h (HDR_ADDR b) (s ||| f)) (HDR_ADDR b) = true := m1
  have e : FTR_ADDR c b (store h (HDR_ADDR b) (s ||| f)) =
      Outcome.ok (add64 b (size_of (s ||| f))) (store h (HDR_ADDR b) (s ||| f)) := by
    rw [FTR_ADDR_eval hm, store_same]
  rw [bnd_of_ok e]
  exact PUT_eval _ m2

theorem set_header_footer_alloc {c : Config} {b s f : Nat} {h : Heap}
    (hf : f &&& 2 ≠ 0) (m1 : aligned_mapped c h (HDR_ADDR b) = true) :
    set_header_footer c b s f h = Outcome.ok () (store h (HDR_ADDR b) (s ||| f)) := by
  unfold set_header_footer
  rw [bnd_of_ok (PUT_eval _ m1), if_neg hf]
  rfl

theorem first_header_size {P : Nat} (h16 : P % 16 = 0) (hlo : 112 ≤ P)
    (hhi : P < 18446744073709551616) :
    size_of ((P - 40) ||| 1) = P - 48 ∧ alloc_of ((P - 40) ||| 1) = 0 ∧
      prev_alloc_of ((P - 40) ||| 1) = 1 := by
  rw [or_one_even (by omega)]
  refine ⟨?_, alloc_of_mod4 (by omega), prev_alloc_of_odd (by omega)⟩
  rw [size_of_eq (by omega)]
  omega

theorem rest_header_size {P : Nat} (h16 : P % 16 = 0) (hlo : 112 ≤ P)
    (hhi : P < 18446744073709551616) :
    size_of ((P - 80) ||| 1) = P - 80 ∧ alloc_of ((P - 80) ||| 1) = 0 ∧
      prev_alloc_of ((P - 80) ||| 1) = 1 := by
  rw [or_one_even (by omega)]
  refine ⟨?_, alloc_of_mod4 (by omega), prev_alloc_of_odd (by omega)⟩
  rw [size_of_eq (by omega)]
  omega

theorem bnd_step {α β : Type} {m : M α} {f : α → M β} {h h1 : Heap} {a : α} {b : β}
    {Q : Heap → Prop} (e : m h = Outcome.ok a h1)
    (rest : ∃ h2, f a h1 = Outcome.ok b h2 ∧ Q h2) :
    ∃ h2, bnd m f h = Outcome.ok b h2 ∧ Q h2 := by
  obtain ⟨h2, e2, q⟩ := rest
  exact ⟨h2, by rw [bnd_of_ok e]; exact e2, q⟩

theorem init_state_of_stores (c : Config) (hc : c.sane) (he : Heap) (pe1 : he.pages = 1)
    (r8 : he.mem (c.mem_start + 8) = 35)
    (rE : he.mem (c.mem_start + c.PAGE_SZ - 8) = 2)
    (rW : he.mem (c.mem_start + 40) = (c.PAGE_SZ - 40) ||| 1)
    (rF : he.mem (c.mem_start + c.PAGE_SZ - 16) = (c.PAGE_SZ - 40) ||| 1)
    (rde : ∀ j, j < c.NUM_FREE_LISTS →
      he.mem (c.heads + 32 * j + 16) = c.heads + 32 * j ∧
      he.mem (c.heads + 32 * j + 24) = c.heads + 32 * j) :
    InitState c { store (store (store (store he
      (c.heads + 32 * (c.NUM_FREE_LISTS - 1) + 24) (c.mem_start + 32))
      (c.heads + 32 * (c.NUM_FREE_LISTS - 1) + 16) (c.mem_start + 32))
      (c.mem_start + 56) (c.heads + 32 * (c.NUM_FREE_LISTS - 1)))
      (c.mem_start + 48) (c.heads + 32 * (c.NUM_FREE_LISTS - 1)) with
      heap_is_init := true } := by
  unfold Config.sane at hc
  obtain ⟨hK, _, hP16, hP, hS16, hS0, hSE, hH8, hHE, hdisj, hmax⟩ := hc
  refine ⟨pe1, rfl, ?_, ?_, ?_, ?_, ?_, ?_, ?_, ?_, ?_⟩
  · show (store _ _ _).mem _ = _
    rw [store_other (by omega), store_other (by omega), store_other (by omega),
      store_other (by omega), r8]
  · show (store _ _ _).mem _ = _
    rw [store_other (by omega), store_other (by omega), store_other (by omega),
      store_other (by omega), rE]
  · show (store _ _ _).mem _ = _
    rw [store_other (by omega), store_other (by omega), store_other (by omega),
      store_other (by omega), rW]
  · show (store _ _ _).mem _ = _
    rw [store_other (by omega), store_other (by omega), store_other (by omega),
      store_other (by omega), rF]
  · show (store _ _ _).mem _ = _
    rw [store_same]
  · show (store _ _ _).mem _ = _
    rw [store_other (by omega), store_same]
  · intro j hj
    show (store _ _ _).mem _ = _ ∧ (store _ _ _).mem _ = _
    rw [store_other (by omega), store_other (by omega), store_other (by omega),
      store_other (by omega), store_other (by omega), store_other (by omega),
      store_other (by omega), store_other (by omega)]
    exact rde j (by omega)
  · show (store _ _ _).mem _ = _
    rw [store_other (by omega), store_other (by omega), store_same]
  · show (store _ _ _).mem _ = _
    rw [store_other (by omega), store_other (by omega), store_other (by omega),
      store_same]

theorem init_heap_spec (c : Config) (hc : c.sane) (h0 : Heap) (hp : h0.pages = 0) :
    ∃ h1, init_heap c h0 = Outcome.ok () h1 ∧ InitState c h1 := by
  have hs := hc
  unfold Config.sane at hs
  obtain ⟨hK, _, hP16, hP, hS16, hS0, hSE, hH8, hHE, hdisj, hmax⟩ := hs
  obtain ⟨hsz, _, _⟩ := first_header_size hP16 hP (by omega)
  have eg : sf_mem_grow c h0 =
      Outcome.ok c.mem_start { h0 with pages := h0.pages + 1 } := by
    unfold sf_mem_grow mem_end
    rw [if_pos (by omega), hp]
    simp only [Nat.zero_mul, Nat.add_zero]
  generalize hg : ({ h0 with pages := h0.pages + 1 } : Heap) = g at eg
  have pg : g.pages = 1 := by
    rw [← hg]
    show h0.pages + 1 = 1
    omega
  have a1 : HDR_ADDR c.mem_start = c.mem_start + 8 := add64_eq (by omega)
  have a2 : HDR_ADDR (sub64 (c.mem_start + c.PAGE_SZ) DSIZE) = c.mem_start + c.PAGE_SZ - 8 := by
    unfold HDR_ADDR DSIZE
    rw [sub64_eq (by omega) (by omega), add64_eq (by omega)]
    omega
  have a3 : add64 c.mem_start 32 = c.mem_start + 32 := add64_eq (by omega)
  have a4 : HDR_ADDR (c.mem_start + 32) = c.mem_start + 40 := add64_eq (by omega)
  have a5 : sub64 (sub64 c.PAGE_SZ 32) WSIZE = c.PAGE_SZ - 40 := by
    have i1 : sub64 c.PAGE_SZ 32 = c.PAGE_SZ - 32 := sub64_eq (by omega) (by omega)
    unfold WSIZE
    rw [i1, sub64_eq (by omega) (by omega)]
    omega
  have a6 : add64 (c.mem_start + 32) (c.PAGE_SZ - 48) = c.mem_start + c.PAGE_SZ - 16 := by
    rw [add64_eq (by omega)]
    omega
  have a7 : head_addr c (c.NUM_FREE_LISTS - 1) = c.heads + 32 * (c.NUM_FREE_LISTS - 1) :=
    head_addr_eq hc (by omega)
  have a8 : PREV_ADDR (c.heads + 32 * (c.NUM_FREE_LISTS - 1)) =
      c.heads + 32 * (c.NUM_FREE_LISTS - 1) + 24 := add64_eq (by omega)
  have a9 : NEXT_ADDR (c.heads + 32 * (c.NUM_FREE_LISTS - 1)) =
      c.heads + 32 * (c.NUM_FREE_LISTS - 1) + 16 := add64_eq (by omega)
  have a10 : PREV_ADDR (c.mem_start + 32) = c.mem_start + 56 := add64_eq (by omega)
  have a11 : NEXT_ADDR (c.mem_start + 32) = c.mem_start + 48 := add64_eq (by omega)
  have e35 : PACK MIN_BLOCK_SIZE 1 1 = 35 := by decide
  have e2 : PACK 0 1 0 = 2 := by decide
  have e32 : size_of 35 = 32 := by decide
  unfold init_heap
  refine bnd_step eg ?_
  rw [if_neg (by omega)]
  refine bnd_step (rfl : sf_mem_start c g = Outcome.ok c.mem_start g) ?_
  rw [a1, e35]
  refine bnd_step (PUT_eval _ (mapped_arena1 (by exact pg) (by omega) (by omega) (by omega))) ?_
  refine bnd_step (rfl : sf_mem_end c _ = Outcome.ok (mem_end c _) _) ?_
  have eme : mem_end c (store g (c.mem_start + 8) 35) = c.mem_start + c.PAGE_SZ := by
    unfold mem_end
    rw [store_pages, pg]
    omega
  rw [eme, a2, e2]
  refine bnd_step (PUT_eval _ (mapped_arena1 (by exact pg) (by omega) (by omega) (by omega))) ?_
  generalize hhb : store (store g (c.mem_start + 8) 35) (c.mem_start + c.PAGE_SZ - 8) 2 = hb
  have pb : hb.pages = 1 := by rw [← hhb]; exact pg
  have rb : hb.mem (c.mem_start + 8) = 35 := by
    rw [← hhb, store_other (by omega), store_same]
  have rbE : hb.mem (c.mem_start + c.PAGE_SZ - 8) = 2 := by
    rw [← hhb, store_same]
  refine bnd_step (GET_SIZE_eval (mapped_arena1 pb (by omega) (by omega) (by omega))) ?_
  rw [rb, e32]
  simp only [MIN_BLOCK_SIZE]
  rw [a3]
  refine bnd_step (GET_SIZE_eval (mapped_arena1 pb (by omega) (by omega) (by omega))) ?_
  rw [rb, e32, a5]
  refine bnd_step (set_header_footer_free (by decide)
    (by rw [a4]; exact mapped_arena1 pb (by omega) (by omega) (by omega))
    (by rw [hsz, a6]; exact mapped_arena1 pb (by omega) (by omega) (by omega))) ?_
  rw [a4, hsz, a6]
  generalize hhd : store (store hb (c.mem_start + 40) ((c.PAGE_SZ - 40) ||| 1))
    (c.mem_start + c.PAGE_SZ - 16) ((c.PAGE_SZ - 40) ||| 1) = hd
  have pd : hd.pages = 1 := by rw [← hhd]; exact pb
  have rd8 : hd.mem (c.mem_start + 8) = 35 := by
    rw [← hhd, store_other (by omega), store_other (by omega), rb]
  have rdE : hd.mem (c.mem_start + c.PAGE_SZ - 8) = 2 := by
    rw [← hhd, store_other (by omega), store_other (by omega), rbE]
  have rdW : hd.mem (c.mem_start + 40) = (c.PAGE_SZ - 40) ||| 1 := by
    rw [← hhd, store_other (by omega), store_same]
  have rdF : hd.mem (c.mem_start + c.PAGE_SZ - 16) = (c.PAGE_SZ - 40) ||| 1 := by
    rw [← hhd, store_same]
  obtain ⟨he, re, pe, ie, rde, fre⟩ := init_heads_eval c hc c.NUM_FREE_LISTS 0 hd (by omega)
  have pe1 : he.pages = 1 := by rw [pe]; exact pd
  refine bnd_step re ?_
  rw [a7, a8, a9, a10, a11]
  refine bnd_step (PUT_eval _ (mapped_heads (by omega) (by omega) (by omega))) ?_
  refine bnd_step (PUT_eval _ (mapped_heads (by omega) (by omega) (by omega))) ?_
  refine bnd_step (PUT_eval _ (mapped_arena1 (by exact pe1) (by omega) (by omega) (by omega))) ?_
  refine bnd_step (PUT_eval _ (mapped_arena1 (by exact pe1) (by omega) (by omega) (by omega))) ?_
  refine ⟨_, rfl, ?_⟩
  exact init_state_of_stores c hc he pe1
    (by rw [fre _ (by omega), rd8]) (by rw [fre _ (by omega), rdE])
    (by rw [fre _ (by omega), rdW]) (by rw [fre _ (by omega), rdF])
    (fun j hj => rde j (by omega) (by omega))

theorem class_index_le (c : Config) (hK : 2 ≤ c.NUM_FREE_LISTS) (s : Nat) :
    class_index c s + 2 ≤ c.NUM_FREE_LISTS := by
  unfold class_index
  simp only []
  split_ifs <;> omega

theorem class_index_min (c : Config) (hK : 2 ≤ c.NUM_FREE_LISTS) :
    class_index c 32 = 0 := by
  have h32 : MIN_BLOCK_SIZE = 32 := rfl
  unfold class_index
  simp only []
  split_ifs <;> omega

theorem scan_lists_succ (c : Config) (fuel s n index : Nat) :
    scan_lists c fuel s (n + 1) index =
      bnd (GET c (NEXT_ADDR (head_addr c index))) (fun curr =>
        bnd (scan_list c s (head_addr c index) fuel curr) (fun r =>
          match r with
          | some b => ret b
          | none => scan_lists c fuel s n (index + 1))) := rfl

theorem scan_list_succ (c : Config) (s head fuel curr : Nat) :
    scan_list c s head (fuel + 1) curr =
      if curr = head then ret none else
      bnd (GET_SIZE c (HDR_ADDR curr)) (fun sz =>
        if sz ≥ s then ret (some curr) else
        bnd (GET c (NEXT_ADDR curr)) (fun nx => scan_list c s head fuel nx)) := rfl

theorem scan_lists_skip (c : Config) (hc : c.sane) (fuel s : Nat) (h : Heap) (m : Nat) :
    ∀ n i, i + n ≤ c.NUM_FREE_LISTS →
      (∀ j, i ≤ j → j < i + n → h.mem (c.heads + 32 * j + 16) = c.heads + 32 * j) →
      scan_lists c (fuel + 1) s (n + m) i h = scan_lists c (fuel + 1) s m (i + n) h := by
  intro n
  induction n with
  | zero =>
    intro i _ _
    simp only [Nat.zero_add, Nat.add_zero]
  | succ n ih =>
    intro i hi hj
    have hs := hc
    unfold Config.sane at hs
    have hh : head_addr c i = c.heads + 32 * i := head_addr_eq hc (by omega)
    have e2 : NEXT_ADDR (c.heads + 32 * i) = c.heads + 32 * i + 16 := add64_eq (by omega)
    have e : n + 1 + m = (n + m) + 1 := by omega
    have e3 : scan_list c s (c.heads + 32 * i) (fuel + 1) (c.heads + 32 * i) h =
        Outcome.ok none h := by
      rw [scan_list_succ, if_pos rfl]
      rfl
    have e4 : i + 1 + n = i + (n + 1) := by omega
    rw [e, scan_lists_succ, hh, e2,
      bnd_of_ok (GET_eval (mapped_heads (by omega) (by omega) (by omega))),
      hj i (by omega) (by omega), bnd_of_ok e3]
    simp only
    rw [ih (i + 1) (by omega) (fun j h1 h2 => hj j (by omega) (by omega)), e4]

theorem get_fit_block_init (c : Config) (hc : c.sane) (fuel : Nat) (h1 : Heap)
    (hI : InitState c h1) :
    get_fit_block c (fuel + 1) 32 h1 = Outcome.ok (c.mem_start + 32) h1 := by
  have hs := hc
  unfold Config.sane at hs
  obtain ⟨hK, _, hP16, hP, hS16, hS0, hSE, hH8, hHE, hdisj, hmax⟩ := hs
  obtain ⟨hsz, _, _⟩ := first_header_size hP16 hP (by omega)
  obtain ⟨p1, _, _, _, rW, _, _, _, rH, rL, _⟩ := hI
  have hh : head_addr c (c.NUM_FREE_LISTS - 1) = c.heads + 32 * (c.NUM_FREE_LISTS - 1) :=
    head_addr_eq hc (by omega)
  have e2 : NEXT_ADDR (c.heads + 32 * (c.NUM_FREE_LISTS - 1)) =
      c.heads + 32 * (c.NUM_FREE_LISTS - 1) + 16 := add64_eq (by omega)
  have a4 : HDR_ADDR (c.mem_start + 32) = c.mem_start + 40 := add64_eq (by omega)
  have e3 : scan_list c 32 (c.heads + 32 * (c.NUM_FREE_LISTS - 1)) (fuel + 1)
      (c.mem_start + 32) h1 = Outcome.ok (some (c.mem_start + 32)) h1 := by
    rw [scan_list_succ, if_neg (by omega), a4,
      bnd_of_ok (GET_SIZE_eval (mapped_arena1 p1 (by omega) (by omega) (by omega))), rW, hsz,
      if_pos (by omega)]
    rfl
  have e5 : scan_lists c (fuel + 1) 32 c.NUM_FREE_LISTS 0 h1 =
      Outcome.ok (c.mem_start + 32) h1 := by
    have e : c.NUM_FREE_LISTS = (c.NUM_FREE_LISTS - 1) + 1 := by omega
    rw [e, scan_lists_skip c hc fuel 32 h1 1 (c.NUM_FREE_LISTS - 1) 0 (by omega)
      (fun j _ h2 => (rH j (by omega)).1), Nat.zero_add, scan_lists_succ, ← e, hh, e2,
      bnd_of_ok (GET_eval (mapped_heads (by omega) (by omega) (by omega))), rL,
      bnd_of_ok e3]
    rfl
  unfold get_fit_block
  rw [if_neg (by decide), class_index_min c hK, Nat.sub_zero]
  exact e5


theorem IS_PREV_ALLOC_eval {c : Config} {a : Nat} {h : Heap} (hm : aligned_mapped c h a = true) :
    IS_PREV_ALLOC c a h = Outcome.ok (prev_alloc_of (h.mem a)) h := by
  unfold IS_PREV_ALLOC
  rw [bnd_of_ok (GET_eval hm)]
  rfl

theorem remove_first (c : Config) (hc : c.sane) (h1 : Heap) (hI : InitState c h1) :
    ∃ h2, remove_free_list c (c.mem_start + 32) h1 = Outcome.ok () h2 ∧ Unlinked c h2 := by
  have hs := hc
  unfold Config.sane at hs
  obtain ⟨hK, _, hP16, hP, hS16, hS0, hSE, hH8, hHE, hdisj, hmax⟩ := hs
  obtain ⟨p1, i1, r8, rE, rW, rF, rN, rP, rH, rL, rL2⟩ := hI
  have a8 : PREV_ADDR (c.heads + 32 * (c.NUM_FREE_LISTS - 1)) =
      c.heads + 32 * (c.NUM_FREE_LISTS - 1) + 24 := add64_eq (by omega)
  have a9 : NEXT_ADDR (c.heads + 32 * (c.NUM_FREE_LISTS - 1)) =
      c.heads + 32 * (c.NUM_FREE_LISTS - 1) + 16 := add64_eq (by omega)
  have a10 : PREV_ADDR (c.mem_start + 32) = c.mem_start + 56 := add64_eq (by omega)
  have a11 : NEXT_ADDR (c.mem_start + 32) = c.mem_start + 48 := add64_eq (by omega)
  unfold remove_free_list
  rw [a10, a11]
  refine bnd_step (GET_eval (mapped_arena1 (by exact p1) (by omega) (by omega) (by omega))) ?_
  rw [rN]
  refine bnd_step (GET_eval (mapped_arena1 (by exact p1) (by omega) (by omega) (by omega))) ?_
  rw [rP, a8]
  refine bnd_step (PUT_eval _ (mapped_heads (by omega) (by omega) (by omega))) ?_
  refine bnd_step (GET_eval (mapped_arena1 (by exact p1) (by omega) (by omega) (by omega))) ?_
  rw [store_other (by omega), rP]
  refine bnd_step (GET_eval (mapped_arena1 (by exact p1) (by omega) (by omega) (by omega))) ?_
  rw [store_other (by omega), rN, a9]
  refine bnd_step (PUT_eval _ (mapped_heads (by omega) (by omega) (by omega))) ?_
  refine bnd_step (PUT_eval _ (mapped_arena1 (by exact p1) (by omega) (by omega) (by omega))) ?_
  refine ⟨_, PUT_eval _ (mapped_arena1 (by exact p1) (by omega) (by omega) (by omega)), ?_⟩
  refine ⟨p1, i1, ?_, ?_, ?_, ?_, ?_⟩
  · rw [store_other (by omega), store_other (by omega), store_other (by omega),
      store_other (by omega), r8]
  · rw [store_other (by omega), store_other (by omega), store_other (by omega),
      store_other (by omega), rE]
  · rw [store_other (by omega), store_other (by omega), store_other (by omega),
      store_other (by omega), rW]
  · rw [store_other (by omega), store_other (by omega), store_other (by omega),
      store_other (by omega), rF]
  · intro j hj
    by_cases hjl : j = c.NUM_FREE_LISTS - 1
    · subst hjl
      rw [store_other (by omega), store_other (by omega), store_same,
        store_other (by omega), store_other (by omega), store_other (by omega),
        store_same]
      exact ⟨rfl, rfl⟩
    · rw [store_other (by omega), store_other (by omega), store_other (by omega),
        store_other (by omega), store_other (by omega), store_other (by omega),
        store_other (by omega), store_other (by omega)]
      exact rH j (by omega)


theorem get_next_block_eval {c : Config} {b : Nat} {h : Heap}
    (hm : aligned_mapped c h (HDR_ADDR b) = true)
    (hlt : ¬ add64 b (size_of (h.mem (HDR_ADDR b))) ≥ sub64 (mem_end c h) 8) :
    get_next_block c b h = Outcome.ok (add64 b (size_of (h.mem (HDR_ADDR b)))) h := by
  unfold get_next_block
  rw [bnd_of_ok (GET_SIZE_eval hm),
    bnd_of_ok (rfl : sf_mem_end c h = Outcome.ok (mem_end c h) h), if_neg hlt]
  rfl

theorem after_first_of_stores (c : Config) (hc : c.sane) (h2 : Heap) (hU : Unlinked c h2) :
    AfterFirst c (store (store (store (store (store (store (store h2
      (c.mem_start + 40) 35)
      (c.mem_start + 72) ((c.PAGE_SZ - 80) ||| 1))
      (c.mem_start + c.PAGE_SZ - 16) ((c.PAGE_SZ - 80) ||| 1))
      (c.mem_start + 80) (c.heads + 32 * class_index c (c.PAGE_SZ - 80)))
      (c.mem_start + 88) (c.heads + 32 * class_index c (c.PAGE_SZ - 80)))
      (c.heads + 32 * class_index c (c.PAGE_SZ - 80) + 24) (c.mem_start + 64))
      (c.heads + 32 * class_index c (c.PAGE_SZ - 80) + 16) (c.mem_start + 64)) := by
  have hs := hc
  unfold Config.sane at hs
  obtain ⟨hK, _, hP16, hP, hS16, hS0, hSE, hH8, hHE, hdisj, hmax⟩ := hs
  obtain ⟨p1, i1, r8, rE, rW, rF, rH⟩ := hU
  have hj := class_index_le c hK (c.PAGE_SZ - 80)
  refine ⟨p1, i1, ?_, ?_, ?_, ?_, ?_, ?_, ?_, ?_, ?_, ?_⟩
  · rw [store_other (by omega), store_other (by omega), store_other (by omega),
      store_other (by omega), store_other (by omega), store_other (by omega),
      store_other (by omega), r8]
  · rw [store_other (by omega), store_other (by omega), store_other (by omega),
      store_other (by omega), store_other (by omega), store_other (by omega), store_same]
  · rw [store_other (by omega), store_other (by omega), store_other (by omega),
      store_other (by omega), store_other (by omega), store_same]
  · rw [store_other (by omega), store_other (by omega), store_other (by omega),
      store_other (by omega), store_same]
  · rw [store_other (by omega), store_other (by omega), store_other (by omega),
      store_other (by omega), store_other (by omega), store_other (by omega),
      store_other (by omega), rE]
  · rw [store_other (by omega), store_other (by omega), store_other (by omega), store_same]
  · rw [store_other (by omega), store_other (by omega), store_same]
  · rw [store_same]
  · rw [store_other (by omega), store_same]
  · intro i hjK hjne
    rw [store_other (by omega), store_other (by omega), store_other (by omega),
      store_other (by omega), store_other (by omega), store_other (by omega),
      store_other (by omega)]
    exact (rH i hjK).1

theorem split_first (c : Config) (hc : c.sane) (h2 : Heap) (hU : Unlinked c h2) :
    ∃ h3, split_block c (c.mem_start + 32) 32 h2 = Outcome.ok (c.mem_start + 32) h3 ∧
      AfterFirst c h3 := by
  have hs := hc
  unfold Config.sane at hs
  obtain ⟨hK, _, hP16, hP, hS16, hS0, hSE, hH8, hHE, hdisj, hmax⟩ := hs
  obtain ⟨hsz, _, hpa⟩ := first_header_size hP16 hP (by omega)
  obtain ⟨hsz2, _, _⟩ := rest_header_size hP16 hP (by omega)
  obtain ⟨p1, i1, r8, rE, rW, rF, rH⟩ := hU
  have hj := class_index_le c hK (c.PAGE_SZ - 80)
  have a4 : HDR_ADDR (c.mem_start + 32) = c.mem_start + 40 := add64_eq (by omega)
  have a5 : sub64 (c.PAGE_SZ - 48) 32 = c.PAGE_SZ - 80 := by
    rw [sub64_eq (by omega) (by omega)]
    omega
  have a6 : HDR_ADDR (c.mem_start + 64) = c.mem_start + 72 := add64_eq (by omega)
  have a7 : add64 (c.mem_start + 64) (c.PAGE_SZ - 80) = c.mem_start + c.PAGE_SZ - 16 := by
    rw [add64_eq (by omega)]
    omega
  have a8 : NEXT_ADDR (c.mem_start + 64) = c.mem_start + 80 := add64_eq (by omega)
  have a9 : PREV_ADDR (c.mem_start + 64) = c.mem_start + 88 := add64_eq (by omega)
  have a10 : head_addr c (class_index c (c.PAGE_SZ - 80)) =
      c.heads + 32 * class_index c (c.PAGE_SZ - 80) := head_addr_eq hc (by omega)
  have a11 : NEXT_ADDR (c.heads + 32 * class_index c (c.PAGE_SZ - 80)) =
      c.heads + 32 * class_index c (c.PAGE_SZ - 80) + 16 := add64_eq (by omega)
  have a12 : PREV_ADDR (c.heads + 32 * class_index c (c.PAGE_SZ - 80)) =
      c.heads + 32 * class_index c (c.PAGE_SZ - 80) + 24 := add64_eq (by omega)
  have e23 : (2 : Nat) ||| 1 = 3 := by decide
  have e35 : (32 : Nat) ||| 3 = 35 := by decide
  have e32 : size_of 35 = 32 := by decide
  have enx : get_next_block c (c.mem_start + 32) (store h2 (c.mem_start + 40) 35) =
      Outcome.ok (c.mem_start + 64) (store h2 (c.mem_start + 40) 35) := by
    have hm : aligned_mapped c (store h2 (c.mem_start + 40) 35) (HDR_ADDR (c.mem_start + 32)) = true := by
      rw [a4]
      exact mapped_arena1 (by exact p1) (by omega) (by omega) (by omega)
    have hv : (store h2 (c.mem_start + 40) 35).mem (HDR_ADDR (c.mem_start + 32)) = 35 := by
      rw [a4, store_same]
    have hme : mem_end c (store h2 (c.mem_start + 40) 35) = c.mem_start + c.PAGE_SZ := by
      unfold mem_end
      rw [store_pages, p1]
      omega
    have hadd : add64 (c.mem_start + 32) 32 = c.mem_start + 64 := add64_eq (by omega)
    have h := get_next_block_eval (c := c) (b := c.mem_start + 32)
      (h := store h2 (c.mem_start + 40) 35) hm
      (by rw [hv, e32, hadd, hme, sub64_eq (by omega) (by omega)]; omega)
    rw [hv, e32, hadd] at h
    exact h
  have hins : ∃ h3, insert_free_list c (c.mem_start + 64)
      (store (store (store h2 (c.mem_start + 40) 35) (c.mem_start + 72)
        ((c.PAGE_SZ - 80) ||| 1)) (c.mem_start + c.PAGE_SZ - 16) ((c.PAGE_SZ - 80) ||| 1)) =
        Outcome.ok () h3 ∧ AfterFirst c h3 := by
    unfold insert_free_list
    rw [a6]
    refine bnd_step (GET_SIZE_eval (mapped_arena1 (by exact p1) (by omega) (by omega) (by omega))) ?_
    rw [store_other (by omega), store_same, hsz2, a10, a11, a8, a9]
    refine bnd_step (GET_eval (mapped_heads (by omega) (by omega) (by omega))) ?_
    rw [store_other (by omega), store_other (by omega), store_other (by omega),
      (rH _ (by omega)).1]
    refine bnd_step (PUT_eval _ (mapped_arena1 (by exact p1) (by omega) (by omega) (by omega))) ?_
    refine bnd_step (PUT_eval _ (mapped_arena1 (by exact p1) (by omega) (by omega) (by omega))) ?_
    refine bnd_step (GET_eval (mapped_heads (by omega) (by omega) (by omega))) ?_
    rw [store_other (by omega), store_other (by omega), store_other (by omega),
      store_other (by omega), store_other (by omega), (rH _ (by omega)).1, a12]
    refine bnd_step (PUT_eval _ (mapped_heads (by omega) (by omega) (by omega))) ?_
    exact ⟨_, PUT_eval _ (mapped_heads (by omega) (by omega) (by omega)),
      after_first_of_stores c hc h2 ⟨p1, i1, r8, rE, rW, rF, rH⟩⟩
  unfold split_block
  rw [a4]
  refine bnd_step (GET_SIZE_eval (mapped_arena1 (by exact p1) (by omega) (by omega) (by omega))) ?_
  rw [rW, hsz]
  simp only [MIN_BLOCK_SIZE]
  rw [a5, if_neg (by omega)]
  refine bnd_step (IS_PREV_ALLOC_eval
    (mapped_arena1 (by exact p1) (by omega) (by omega) (by omega))) ?_
  rw [rW, hpa, e23]
  refine bnd_step (set_header_footer_alloc (by decide)
    (by rw [a4]; exact mapped_arena1 (by exact p1) (by omega) (by omega) (by omega))) ?_
  rw [a4, e35]
  refine bnd_step enx ?_
  refine bnd_step (set_header_footer_free (by decide)
    (by rw [a6]; exact mapped_arena1 (by exact p1) (by omega) (by omega) (by omega))
    (by rw [hsz2, a7]; exact mapped_arena1 (by exact p1) (by omega) (by omega) (by omega))) ?_
  rw [a6, hsz2, a7]
  obtain ⟨h3, e3, q3⟩ := hins
  exact ⟨h3, by rw [bnd_of_ok e3]; rfl, q3⟩


theorem list_blocks_succ (c : Config) (h : Heap) (head fuel curr : Nat) :
    list_blocks c h head (fuel + 1) curr =
      if curr = head then some []
      else if aligned_mapped c h (NEXT_ADDR curr) then
        (list_blocks c h head fuel (h.mem (NEXT_ADDR curr))).map (fun l => curr :: l)
      else none := rfl

theorem linked_upto_single (c : Config) (h : Heap) (fuel j b : Nat) :
    ∀ n, (∀ i, i < n → free_list c h fuel i = if i = j then some [b] else some []) →
      linked_upto c h fuel n = if j < n then some [b] else some [] := by
  intro n
  induction n with
  | zero =>
    intro _
    rfl
  | succ n ih =>
    intro hall
    have h1 := ih (fun i hi => hall i (by omega))
    have h2 := hall n (by omega)
    unfold linked_upto
    rw [h1, h2]
    by_cases hjn : j < n
    · rw [if_pos hjn, if_neg (by omega), if_pos (by omega)]
      rfl
    · rw [if_neg hjn]
      by_cases hje : n = j
      · rw [if_pos hje, if_pos (by omega)]
        rfl
      · rw [if_neg hje, if_neg (by omega)]
        rfl

theorem linked_after_first (c : Config) (hc : c.sane) (h : Heap) (hA : AfterFirst c h)
    (fuel : Nat) :
    linked_blocks c h (fuel + 2) = some [c.mem_start + 64] := by
  have hs := hc
  unfold Config.sane at hs
  obtain ⟨hK, _, hP16, hP, hS16, hS0, hSE, hH8, hHE, hdisj, hmax⟩ := hs
  obtain ⟨p1, _, _, _, _, _, _, rN, _, rJ, _, rO⟩ := hA
  have hj := class_index_le c hK (c.PAGE_SZ - 80)
  have a8 : NEXT_ADDR (c.mem_start + 64) = c.mem_start + 80 := add64_eq (by omega)
  have hall : ∀ i, i < c.NUM_FREE_LISTS → free_list c h (fuel + 2) i =
      if i = class_index c (c.PAGE_SZ - 80) then some [c.mem_start + 64] else some [] := by
    intro i hi
    have hh : head_addr c i = c.heads + 32 * i := head_addr_eq hc hi
    have e2 : NEXT_ADDR (c.heads + 32 * i) = c.heads + 32 * i + 16 := add64_eq (by omega)
    unfold free_list
    rw [hh, e2]
    by_cases hij : i = class_index c (c.PAGE_SZ - 80)
    · rw [if_pos hij, hij, rJ, list_blocks_succ, if_neg (by omega), a8,
        if_pos (mapped_arena1 p1 (by omega) (by omega) (by omega)), rN, list_blocks_succ,
        if_pos rfl]
      rfl
    · rw [if_neg hij, rO i hi hij, list_blocks_succ, if_pos rfl]
  unfold linked_blocks
  rw [linked_upto_single c h (fuel + 2) _ _ c.NUM_FREE_LISTS hall, if_pos (by omega)]

/-! ## Size classes, the search, and caller writes -/

theorem class_loop_ge (s : Nat) : ∀ n i low high, i ≤ class_loop s n i low high := by
  intro n
  induction n with
  | zero => intro i low high; exact Nat.le_refl i
  | succ n ih =>
    intro i low high
    unfold class_loop
    split
    · exact Nat.le_refl i
    · exact Nat.le_trans (Nat.le_succ i) (ih (i + 1) (low * 2) (high * 2))

theorem class_loop_le (s : Nat) : ∀ n i low high, class_loop s n i low high ≤ i + n := by
  intro n
  induction n with
  | zero => intro i low high; exact Nat.le_refl i
  | succ n ih =>
    intro i low high
    unfold class_loop
    split
    · omega
    · have := ih (i + 1) (low * 2) (high * 2)
      omega

/-- The class loop leaves at the iteration whose bounds hold the size: after
`k` doublings of `low`, when `low * 2 ^ k < s ≤ 2 * low * 2 ^ k`. -/
theorem class_loop_break (s : Nat) : ∀ k n i low, k < n → low * 2 ^ k < s →
    s ≤ 2 * low * 2 ^ k → class_loop s n i low (2 * low) = i + k := by
  intro k
  induction k with
  | zero =>
    intro n i low hn hlo hhi
    obtain ⟨m, rfl⟩ : ∃ m, n = m + 1 := ⟨n - 1, by omega⟩
    unfold class_loop
    rw [if_pos ⟨by omega, by omega⟩]
    rfl
  | succ k ih =>
    intro n i low hn hlo hhi
    obtain ⟨m, rfl⟩ : ∃ m, n = m + 1 := ⟨n - 1, by omega⟩
    have e1 : low * 2 ^ (k + 1) = low * 2 * 2 ^ k := by ring
    have e2 : 2 * low * 2 ^ (k + 1) = 2 * (low * 2) * 2 ^ k := by ring
    have hp : 1 ≤ 2 ^ k := Nat.one_le_two_pow
    have hge : 2 * low ≤ low * 2 * 2 ^ k := by
      calc 2 * low = low * 2 * 1 := by ring
        _ ≤ low * 2 * 2 ^ k := Nat.mul_le_mul_left _ hp
    unfold class_loop
    rw [if_neg (by omega)]
    have := ih m (i + 1) (low * 2) (by omega) (by omega) (by omega)
    rw [show 2 * low * 2 = 2 * (low * 2) by ring, this]
    omega

/-- The class loop runs to its end when the size is above every upper bound. -/
theorem class_loop_top (s : Nat) : ∀ n i low, low * 2 ^ n < s →
    class_loop s n i low (2 * low) = i + n := by
  intro n
  induction n with
  | zero => intro i low _; rfl
  | succ n ih =>
    intro i low hs
    have e1 : low * 2 ^ (n + 1) = low * 2 * 2 ^ n := by ring
    have hp : 1 ≤ 2 ^ n := Nat.one_le_two_pow
    have hge : 2 * low ≤ low * 2 * 2 ^ n := by
      calc 2 * low = low * 2 * 1 := by ring
        _ ≤ low * 2 * 2 ^ n := Nat.mul_le_mul_left _ hp
    unfold class_loop
    rw [if_neg (by omega)]
    have := ih (i + 1) (low * 2) (by omega)
    rw [show 2 * low * 2 = 2 * (low * 2) by ring, this]
    omega

/-- The class loop is monotone in the size, for sizes above `low`. -/
theorem class_loop_mono (s t : Nat) (hst : s ≤ t) : ∀ n i low, low < s →
    class_loop s n i low (2 * low) ≤ class_loop t n i low (2 * low) := by
  intro n
  induction n with
  | zero => intro i low _; exact Nat.le_refl i
  | succ n ih =>
    intro i low hlo
    by_cases hs : s ≤ 2 * low
    · have e : class_loop s (n + 1) i low (2 * low) = i := by
        unfold class_loop
        rw [if_pos ⟨hlo, hs⟩]
      rw [e]
      exact class_loop_ge t (n + 1) i low (2 * low)
    · have es : class_loop s (n + 1) i low (2 * low) =
          class_loop s n (i + 1) (low * 2) (2 * low * 2) := by
        rw [class_loop, if_neg (by omega)]
      have et : class_loop t (n + 1) i low (2 * low) =
          class_loop t n (i + 1) (low * 2) (2 * low * 2) := by
        rw [class_loop, if_neg (by omega)]
      rw [es, et, show 2 * low * 2 = 2 * (low * 2) by ring]
      exact ih (i + 1) (low * 2) (by omega)

theorem class_index_mono (c : Config) (hK : 2 ≤ c.NUM_FREE_LISTS) (s t : Nat)
    (hs : 32 ≤ s) (hst : s ≤ t) : class_index c s ≤ class_index c t := by
  by_cases h32 : s = 32
  · have : class_index c s = 0 := by
      unfold class_index MIN_BLOCK_SIZE
      simp only []
      rw [if_pos h32]
      split_ifs <;> omega
    omega
  · have hm := class_loop_mono s t hst (c.NUM_FREE_LISTS - 2 - 1) 1 32 (by omega)
    have h1 := class_loop_le s (c.NUM_FREE_LISTS - 2 - 1) 1 32 (2 * 32)
    have h2 := class_loop_le t (c.NUM_FREE_LISTS - 2 - 1) 1 32 (2 * 32)
    have h3 := class_loop_ge s (c.NUM_FREE_LISTS - 2 - 1) 1 32 (2 * 32)
    have h4 := class_loop_ge t (c.NUM_FREE_LISTS - 2 - 1) 1 32 (2 * 32)
    unfold class_index MIN_BLOCK_SIZE
    simp only []
    rw [if_neg h32, if_neg (by omega : ¬ t = 32)]
    rw [show 32 * 2 = 2 * 32 from rfl]
    split_ifs <;> omega

theorem class_index_spec (c : Config) (hK : 3 ≤ c.NUM_FREE_LISTS) (s : Nat) :
    (s = 32 → class_index c s = 0) ∧
      (∀ i, 1 ≤ i → i + 3 ≤ c.NUM_FREE_LISTS → 32 * 2 ^ (i - 1) < s → s ≤ 32 * 2 ^ i →
        class_index c s = i) ∧
      (32 * 2 ^ (c.NUM_FREE_LISTS - 3) < s → class_index c s = c.NUM_FREE_LISTS - 2) ∧
      class_index c s ≤ c.NUM_FREE_LISTS - 2 := by
  refine ⟨?_, ?_, ?_, ?_⟩
  · intro h32
    unfold class_index MIN_BLOCK_SIZE
    simp only []
    rw [if_pos h32]
    split_ifs <;> omega
  · intro i hi hiK hlo hhi
    obtain ⟨k, rfl⟩ : ∃ k, i = k + 1 := ⟨i - 1, by omega⟩
    have hp : 1 ≤ 2 ^ k := Nat.one_le_two_pow
    have e : 32 * 2 ^ (k + 1) = 2 * 32 * 2 ^ k := by ring
    have hb := class_loop_break s k (c.NUM_FREE_LISTS - 2 - 1) 1 32 (by omega)
      (by simpa using hlo) (by omega)
    have hne : s ≠ 32 := by
      have : 32 * 1 ≤ 32 * 2 ^ k := Nat.mul_le_mul_left _ hp
      simp only [Nat.add_sub_cancel] at hlo
      omega
    unfold class_index MIN_BLOCK_SIZE
    simp only []
    rw [if_neg hne, show 32 * 2 = 2 * 32 from rfl, hb]
    split_ifs <;> omega
  · intro hs
    have hp : 1 ≤ 2 ^ (c.NUM_FREE_LISTS - 3) := Nat.one_le_two_pow
    have hne : s ≠ 32 := by
      have : 32 * 1 ≤ 32 * 2 ^ (c.NUM_FREE_LISTS - 3) := Nat.mul_le_mul_left _ hp
      omega
    have hb := class_loop_top s (c.NUM_FREE_LISTS - 2 - 1) 1 32
      (by rw [show c.NUM_FREE_LISTS - 2 - 1 = c.NUM_FREE_LISTS - 3 by omega]; exact hs)
    unfold class_index MIN_BLOCK_SIZE
    simp only []
    rw [if_neg hne, show 32 * 2 = 2 * 32 from rfl, hb]
    split_ifs <;> omega
  · have := class_index_le c (by omega) s
    omega

/-- On a list that can be walked, the `while` loop of `get_fit_block` returns
the first block of at least `s` bytes and leaves the heap as it is. -/
theorem scan_list_spec (c : Config) (h : Heap) (s head : Nat) :
    ∀ fuel curr l, list_blocks c h head fuel curr = some l →
      (∀ b ∈ l, aligned_mapped c h (HDR_ADDR b) = true) →
      scan_list c s head fuel curr h =
        Outcome.ok (l.find? (fun b => decide (s ≤ block_size h b))) h := by
  intro fuel
  induction fuel with
  | zero =>
    intro curr l hl _
    simp [list_blocks] at hl
  | succ fuel ih =>
    intro curr l hl hm
    rw [list_blocks_succ] at hl
    rw [scan_list_succ]
    by_cases hc : curr = head
    · rw [if_pos hc] at hl
      rw [if_pos hc]
      cases hl
      rfl
    · rw [if_neg hc] at hl
      rw [if_neg hc]
      by_cases hn : aligned_mapped c h (NEXT_ADDR curr) = true
      · rw [if_pos hn] at hl
        cases hr : list_blocks c h head fuel (h.mem (NEXT_ADDR curr)) with
        | none => rw [hr] at hl; cases hl
        | some l1 =>
          rw [hr] at hl
          cases hl
          have hmc := hm curr (List.mem_cons_self _ _)
          rw [bnd_of_ok (GET_SIZE_eval hmc)]
          by_cases hsz : size_of (h.mem (HDR_ADDR curr)) ≥ s
          · rw [if_pos hsz, List.find?_cons_of_pos]
            · rfl
            · exact decide_eq_true hsz
          · rw [if_neg hsz, bnd_of_ok (GET_eval hn), List.find?_cons_of_neg]
            · exact ih _ l1 hr (fun b hb => hm b (List.mem_cons_of_mem _ hb))
            · simpa [block_size] using hsz
      · rw [if_neg hn] at hl
        cases hl
theorem list_ok_free_list {c : Config} {h : Heap} {fuel j : Nat}
    (hl : list_ok c h fuel j = true) :
    ∃ l, free_list c h fuel j = some l ∧ ∀ b ∈ l, b ≠ 0 ∧ aligned_mapped c h (HDR_ADDR b) = true ∧
      (j + 1 = c.NUM_FREE_LISTS ∨ class_index c (block_size h b) = j) := by
  unfold list_ok at hl
  cases hf : free_list c h fuel j with
  | none => rw [hf] at hl; cases hl
  | some l =>
    rw [hf] at hl
    refine ⟨l, rfl, fun b hb => ?_⟩
    have hb1 := List.all_eq_true.mp hl b hb
    simp only [Bool.and_eq_true, Bool.or_eq_true, bne_iff_ne, ne_eq, beq_iff_eq] at hb1
    exact ⟨hb1.1.1, hb1.1.2, hb1.2⟩

/-- The list loop of `get_fit_block` from list `index` on: it leaves the heap
as it is and returns the first block of at least `s` bytes in scan order, or
`NULL` when the lists from `index` on hold none. -/
theorem scan_lists_spec (c : Config) (h : Heap) (fuel s : Nat)
    (hH8 : c.heads % 8 = 0) (hHE : c.heads + 32 * c.NUM_FREE_LISTS < 18446744073709551616) :
    ∀ n index, index + n = c.NUM_FREE_LISTS →
      (∀ j, index ≤ j → j < c.NUM_FREE_LISTS → list_ok c h fuel j = true) →
      ∃ r, scan_lists c fuel s n index h = Outcome.ok r h ∧
        ((r = 0 ∧ ∀ j, index ≤ j → j < c.NUM_FREE_LISTS → ∀ l,
            free_list c h fuel j = some l → ∀ b ∈ l, block_size h b < s) ∨
          ∃ j l1 l2, index ≤ j ∧ j < c.NUM_FREE_LISTS ∧
            free_list c h fuel j = some (l1 ++ r :: l2) ∧ s ≤ block_size h r ∧
            (∀ b ∈ l1, block_size h b < s) ∧
            ∀ i, index ≤ i → i < j → ∀ l, free_list c h fuel i = some l →
              ∀ b ∈ l, block_size h b < s) := by
  intro n
  induction n with
  | zero =>
    intro index hn _
    exact ⟨0, rfl, Or.inl ⟨rfl, fun j h1 h2 => by omega⟩⟩
  | succ n ih =>
    intro index hn hok
    obtain ⟨l, hl, hall⟩ := list_ok_free_list (hok index (Nat.le_refl _) (by omega))
    have hhd : head_addr c index = c.heads + 32 * index := by
      unfold head_addr
      exact add64_eq (by omega)
    have hnx : NEXT_ADDR (head_addr c index) = c.heads + 32 * index + 16 := by
      unfold NEXT_ADDR
      rw [hhd]
      exact add64_eq (by omega)
    have hmap : aligned_mapped c h (NEXT_ADDR (head_addr c index)) = true := by
      rw [hnx]
      exact mapped_heads (by omega) (by omega) (by omega)
    have hscan := scan_list_spec c h s (head_addr c index) fuel
      (h.mem (NEXT_ADDR (head_addr c index))) l hl (fun b hb => (hall b hb).2.1)
    rw [scan_lists_succ, bnd_of_ok (GET_eval hmap), bnd_of_ok hscan]
    cases hfind : l.find? (fun b => decide (s ≤ block_size h b)) with
    | some b =>
      obtain ⟨hp, l1, l2, hsplit, hbefore⟩ := List.find?_eq_some.mp hfind
      refine ⟨b, rfl, Or.inr ⟨index, l1, l2, Nat.le_refl _, by omega, ?_, ?_, ?_, ?_⟩⟩
      · rw [hl, hsplit]
      · exact of_decide_eq_true hp
      · intro a ha
        have := hbefore a ha
        simpa using this
      · intro i h1 h2
        omega
    | none =>
      have hnone := List.find?_eq_none.mp hfind
      have hsmall : ∀ b ∈ l, block_size h b < s := by
        intro b hb
        have := hnone b hb
        simpa using this
      obtain ⟨r, hr, hfit⟩ := ih (index + 1) (by omega)
        (fun j h1 h2 => hok j (by omega) h2)
      refine ⟨r, hr, ?_⟩
      rcases hfit with ⟨hr0, hrest⟩ | ⟨j, l1, l2, h1, h2, h3, h4, h5, h6⟩
      · refine Or.inl ⟨hr0, fun j h1 h2 l0 hl0 => ?_⟩
        by_cases hj : j = index
        · subst hj
          rw [hl] at hl0
          cases hl0
          exact hsmall
        · exact hrest j (by omega) h2 l0 hl0
      · refine Or.inr ⟨j, l1, l2, by omega, h2, h3, h4, h5, fun i hi1 hi2 l0 hl0 => ?_⟩
        by_cases hi : i = index
        · subst hi
          rw [hl] at hl0
          cases hl0
          exact hsmall
        · exact h6 i (by omega) hi2 l0 hl0

/-- Below the wrap-around, `get_aligned_size` is the least multiple of 16 that
is at least 32 and at least the request plus one header word. -/
theorem get_aligned_size_in_range (n : Nat) (hn : n + 24 ≤ 18446744073709551616) :
    get_aligned_size n = max 32 (16 * ((n + 8 + 15) / 16)) ∧
      get_aligned_size n % 16 = 0 ∧ 32 ≤ get_aligned_size n ∧ n + 8 ≤ get_aligned_size n ∧
      ∀ m, m % 16 = 0 → 32 ≤ m → n + 8 ≤ m → get_aligned_size n ≤ m := by
  have e8 : add64 n WSIZE = n + 8 := add64_eq (by unfold WSIZE; omega)
  have key : get_aligned_size n = max 32 (16 * ((n + 8 + 15) / 16)) := by
    unfold get_aligned_size MIN_BLOCK_SIZE
    simp only [e8]
    by_cases hr : (n + 8) % 16 = 0
    · rw [if_neg (not_not.mpr hr)]
      split_ifs <;> omega
    · rw [if_pos hr, add64_eq (by omega)]
      split_ifs <;> omega
  rw [key]
  refine ⟨rfl, by omega, by omega, by omega, fun m h1 h2 h3 => by omega⟩

/-- Caller writes at 8-aligned addresses change nothing but the words they
store. -/
theorem caller_writes_frame (c : Config) : ∀ (vs : List Nat) (p : Nat) (h h1 : Heap) (u : Unit),
    p % 8 = 0 → caller_writes c p vs h = Outcome.ok u h1 →
      h1.pages = h.pages ∧ h1.heap_is_init = h.heap_is_init ∧ h1.sf_errno = h.sf_errno ∧
        ∀ x, (x < p ∨ p + 8 * vs.length ≤ x) → h1.mem x = h.mem x := by
  intro vs
  induction vs with
  | nil =>
    intro p h h1 u _ e
    cases e
    exact ⟨rfl, rfl, rfl, fun _ _ => rfl⟩
  | cons v vs ih =>
    intro p h h1 u h8 e
    obtain ⟨a, h2, e1, e2⟩ := bnd_ok e
    obtain ⟨k1, k2, k3, k4⟩ := ih (p + 8) h2 h1 u (by omega) e2
    unfold PUT write at e1
    rw [if_pos h8] at e1
    split at e1
    · cases e1
      refine ⟨k1, k2, k3, fun x hx => ?_⟩
      rw [k4 x (by simp only [List.length_cons] at hx; omega)]
      show (if x = p then v else h.mem x) = h.mem x
      rw [if_neg (by simp only [List.length_cons] at hx; omega)]
    · cases e1

/-! ## The claims -/

/-- C1 (failing input): the first call `sf_malloc(2^64 - 1)` returns a non-null,
16-aligned address whose block has size 32, so only 24 usable bytes follow it,
because `get_aligned_size` wraps around; it does so from `2^64 - 23` on. -/
theorem malloc_huge_request_gets_min_block :
    get_aligned_size (2 ^ 64 - 1) = 32 ∧ get_aligned_size (2 ^ 64 - 23) = 32 ∧
      get_aligned_size (2 ^ 64 - 24) = 2 ^ 64 - 16 ∧
      Returns (sf_malloc cfg 8 (2 ^ 64 - 1) fresh) (fun p h =>
        p ≠ 0 ∧ p % 16 = 0 ∧ payload_block_size h p = 32 ∧
          ¬ (payload_block_size h p - 8 ≥ 2 ^ 64 - 1)) := by
  decide!

/-- C2 (failing input): a 24-byte allocation holds the words `0x1111`, `0x2222`,
`0x3333`; after `sf_realloc(p, 100)` returned a new address, the first two
words are there but the third (bytes 16 to 23 of the payload) is not. -/
theorem realloc_grow_drops_last_word :
    Returns (grow_with_payload fresh) (fun r h =>
      r.2 ≠ 0 ∧ r.2 ≠ r.1 ∧ h.mem r.2 = 0x1111 ∧ h.mem (r.2 + 8) = 0x2222 ∧
        h.mem (r.2 + 16) ≠ 0x3333) := by
  decide!

/-- C3 (failing input): after `a = sf_malloc(24)`, `b = sf_malloc(24)`,
`sf_free(a)`, `sf_malloc(24)`, all of which return, `validate_pointer` is false
for the live address `b` and `sf_free(b)` aborts. -/
theorem free_of_live_block_aborts :
    Returns (reuse_then_free fresh) (fun b h =>
      b ≠ 0 ∧ Returns (validate_pointer cfg (sub64 b DSIZE) h) (fun v _ => v = false) ∧
        isAbort (sf_free cfg b h) = true) := by
  decide!

/-- C4 (failing input): after `double_release_setup`, in which every call is
made on a live address and the caller writes only into usable bytes of its live
allocations, the three allocations are marked allocated and `validate_pointer`
accepts `b`.  The first `sf_free(b)` returns, and afterwards the header of `b`
holds `0x3FF3`, with the allocated bit set: `validate_pointer` returns true for
`b` again, the second `sf_free(b)` returns, and `sf_realloc(b, 100)`,
`sf_realloc(b, 16360)` and `sf_realloc(b, 0)` return `b`, `b` and `NULL`; none
of them aborts. -/
theorem double_release_returns :
    Returns (double_release_setup fresh) (fun r h =>
      alloc_of (h.mem (r.1 - 8)) = 1 ∧ payload_block_size h r.1 = 32 ∧
        alloc_of (h.mem (r.2.1 - 8)) = 1 ∧ payload_block_size h r.2.1 = 64 ∧
        alloc_of (h.mem (r.2.2 - 8)) = 1 ∧ payload_block_size h r.2.2 = 17008 ∧
        Returns (validate_pointer cfg (sub64 r.1 DSIZE) h) (fun v _ => v = true) ∧
        Returns (sf_free cfg r.1 h) (fun _ h1 =>
          h1.mem (r.1 - 8) = 0x3FF3 ∧ alloc_of (h1.mem (r.1 - 8)) = 1 ∧
            Returns (validate_pointer cfg (sub64 r.1 DSIZE) h1) (fun v _ => v = true) ∧
            isOk (sf_free cfg r.1 h1) = true ∧ isAbort (sf_free cfg r.1 h1) = false ∧
            Returns (sf_realloc cfg 8 r.1 100 h1) (fun q _ => q = r.1) ∧
            Returns (sf_realloc cfg 8 r.1 16360 h1) (fun q _ => q = r.1) ∧
            Returns (sf_realloc cfg 8 r.1 0 h1) (fun q _ => q = 0))) := by
  decide!

/-- C5 (failing input): on a heap not yet used, with a provider that cannot
grow, `sf_malloc(1)` does not return `NULL`: it reads through the null `next`
link of an unset sentinel, an invalid access.  (On a heap that is initialized,
a request that needs a page the provider cannot give does return `NULL` with
`sf_errno = ENOMEM`.) -/
theorem malloc_on_exhausted_fresh_heap_faults :
    sf_malloc cfg_exhausted 8 1 fresh = Outcome.fault ∧
      Returns (bnd (sf_malloc cfg_one_page 8 24) (fun _ => sf_malloc cfg_one_page 8 5000) fresh)
        (fun p h => p = 0 ∧ h.sf_errno = ENOMEM) :=
  ⟨eq_fault_of (by decide!), by decide!⟩

/-- C6 (failing input): on the heap built by `adjacent_free_setup`, the block
of `p = sf_malloc(24)` has 32 bytes; after `sf_free(p)` the next `sf_malloc(24)`
returns, without growing the arena, a block that starts beyond the end of the
freed block and beyond the 96-byte free block it was merged into. -/
theorem round_trip_does_not_reuse :
    Returns (round_trip_24 fresh) (fun r h =>
      r.1 ≠ 0 ∧ r.2.2 ≠ 0 ∧ r.2.1 = 32 ∧ h.pages = 1 ∧
        r.1 - 8 + r.2.1 ≤ r.2.2 - 8 ∧ r.1 - 8 + 96 ≤ r.2.2 - 8) := by
  decide!

/-- C7 (counterexample): the first call `sf_malloc(0)` on a fresh heap returns
`NULL` but grows the arena by a page, writes the prologue header and links the
sentinel of list 0 to itself. -/
theorem malloc_zero_fresh_mutates :
    Returns (sf_malloc cfg 8 0 fresh) (fun p h =>
      p = 0 ∧ h.pages ≠ fresh.pages ∧ h.heap_is_init ≠ fresh.heap_is_init ∧
        h.mem (cfg.mem_start + 8) ≠ fresh.mem (cfg.mem_start + 8) ∧
        h.mem (NEXT_ADDR (head_addr cfg 0)) ≠ fresh.mem (NEXT_ADDR (head_addr cfg 0))) := by
  decide!

/-- C7 (amended): on a heap that is already initialized `sf_malloc(0)` returns
`NULL` and leaves the whole state as it was; on a heap not yet used it is
`init_heap` followed by the return of `NULL`, and for a sane configuration with
no page taken yet it returns `NULL` on the heap that `init_heap` sets up. -/
theorem malloc_zero (c : Config) (fuel : Nat) (h : Heap) :
    (h.heap_is_init = true → sf_malloc c fuel 0 h = Outcome.ok 0 h) ∧
      (h.heap_is_init = false →
        sf_malloc c fuel 0 h = bnd (init_heap c) (fun _ => ret 0) h) ∧
      (h.heap_is_init = false → c.sane → h.pages = 0 →
        ∃ h1, sf_malloc c fuel 0 h = Outcome.ok 0 h1 ∧ InitState c h1) := by
  have second : h.heap_is_init = false →
      sf_malloc c fuel 0 h = bnd (init_heap c) (fun _ => ret 0) h := by
    intro hi
    unfold sf_malloc
    rw [bnd_of_ok (rfl : get_init h = Outcome.ok h.heap_is_init h), hi,
      if_neg (by decide)]
    rfl
  refine ⟨?_, second, ?_⟩
  · intro hi
    unfold sf_malloc
    rw [bnd_of_ok (rfl : get_init h = Outcome.ok h.heap_is_init h), hi, if_pos rfl,
      bnd_of_ok (rfl : ret () h = Outcome.ok () h), if_pos rfl]
    rfl
  · intro hi hc hp
    obtain ⟨h1, e1, hI⟩ := init_heap_spec c hc h hp
    exact ⟨h1, by rw [second hi, bnd_of_ok e1]; rfl, hI⟩

/-- C7 (amended), on the heap after a first allocation and on the fresh heap. -/
theorem malloc_zero_witness :
    (live_heap.heap_is_init = true ∧ sf_malloc cfg 8 0 live_heap = Outcome.ok 0 live_heap) ∧
      (fresh.heap_is_init = false ∧ cfg.sane ∧ fresh.pages = 0 ∧
        ∃ h1, sf_malloc cfg 8 0 fresh = Outcome.ok 0 h1 ∧ InitState cfg h1) :=
  ⟨⟨by decide!, (malloc_zero cfg 8 live_heap).1 (by decide!)⟩,
    ⟨rfl, by decide, rfl, (malloc_zero cfg 8 fresh).2.2 rfl (by decide) rfl⟩⟩

/-- C8 (failing input): after the four calls of `reuse_then_free` the address
`b` is live, yet `sf_realloc(b, 0)` aborts, as `sf_free(b)` does; after
`null_links_setup`, where `validate_pointer` accepts the live address `b`,
`sf_realloc(b, 0)` ends in an invalid access, as `sf_free(b)` does.  For every
heap and every non-null address whose header can be read, `sf_realloc(pp, 0)`
has exactly the outcome of `sf_free(pp)` followed by the return of `NULL`, so it
returns `NULL` on the heap that `sf_free(pp)` leaves whenever `sf_free(pp)`
returns. -/
theorem realloc_zero_follows_free (c : Config) (fuel : Nat) (h : Heap) (pp : Nat)
    (hpp : pp ≠ 0) (hm : mapped c h (HDR_ADDR (sub64 pp DSIZE)) = true) :
    (Returns (reuse_then_free fresh) (fun b h0 =>
        b ≠ 0 ∧ alloc_of (h0.mem (b - 8)) = 1 ∧
          isAbort (sf_realloc cfg 8 b 0 h0) = true ∧ isAbort (sf_free cfg b h0) = true) ∧
      Returns (null_links_setup fresh) (fun r h0 =>
        r.1 ≠ 0 ∧ alloc_of (h0.mem (r.1 - 8)) = 1 ∧
          Returns (validate_pointer cfg (sub64 r.1 DSIZE) h0) (fun v _ => v = true) ∧
          isFault (sf_realloc cfg 8 r.1 0 h0) = true ∧ isFault (sf_free cfg r.1 h0) = true)) ∧
      (sf_realloc c fuel pp 0 h = bnd (sf_free c pp) (fun _ => ret 0) h ∧
        ∀ h1, sf_free c pp h = Outcome.ok () h1 →
          sf_realloc c fuel pp 0 h = Outcome.ok 0 h1) := by
  have main := realloc_zero_unfold c fuel h pp hpp hm
  exact ⟨by decide!, main, fun h1 e => by rw [main, bnd_of_ok e]; rfl⟩

/-- C8, at the block returned by the first `sf_malloc(24)`: the two calls agree,
and the call returns `NULL`. -/
theorem realloc_zero_follows_free_witness :
    (0x100030 ≠ 0 ∧ mapped cfg live_heap (HDR_ADDR (sub64 0x100030 DSIZE)) = true) ∧
      sf_realloc cfg 8 0x100030 0 live_heap =
        bnd (sf_free cfg 0x100030) (fun _ => ret 0) live_heap ∧
      Returns (sf_realloc cfg 8 0x100030 0 live_heap) (fun q _ => q = 0) :=
  ⟨⟨by decide, by decide!⟩,
    (realloc_zero_follows_free cfg 8 live_heap 0x100030 (by decide) (by decide!)).2.1,
    by decide!⟩

/-- C9 (counterexample): `sf_malloc(24)` on a fresh heap does not make a
48-byte block; `get_aligned_size(24)` is 32 and so is the size in the header. -/
theorem first_malloc_24_not_48 :
    get_aligned_size 24 ≠ 48 ∧
      Returns (sf_malloc cfg 8 24 fresh) (fun p h => payload_block_size h p ≠ 48) := by
  decide!

/-- C9 (amended): for every sane configuration and every heap not yet used, the
first call `sf_malloc(24)` takes one page and returns the block right after the
prologue, of size 32 and marked allocated; the rest of the page up to the
epilogue header is one free block of `PAGE_SZ - 8 - 32 - 8 - 32` bytes with its
footer, and it is the only block linked in the free lists. -/
theorem first_malloc_24 (c : Config) (hc : c.sane) (h0 : Heap) (hp : h0.pages = 0)
    (hi : h0.heap_is_init = false) (fuel : Nat) (hf : 1 ≤ fuel) :
    Returns (sf_malloc c fuel 24 h0) (fun p h =>
      h.pages = 1 ∧ p = c.mem_start + 8 + 32 + 8 ∧ p % 16 = 0 ∧
        h.mem (c.mem_start + 8) = PACK 32 1 1 ∧
        payload_block_size h p = 32 ∧ alloc_of (h.mem (p - 8)) = 1 ∧
        size_of (h.mem (p + 24)) = c.PAGE_SZ - 8 - 32 - 8 - 32 ∧
        alloc_of (h.mem (p + 24)) = 0 ∧ prev_alloc_of (h.mem (p + 24)) = 1 ∧
        h.mem (p + 16 + size_of (h.mem (p + 24))) = h.mem (p + 24) ∧
        p + 24 + size_of (h.mem (p + 24)) = mem_end c h - 8 ∧
        h.mem (mem_end c h - 8) = PACK 0 1 0 ∧
        linked_blocks c h (fuel + 1) = some [p + 16]) := by
  obtain ⟨f, rfl⟩ : ∃ f, fuel = f + 1 := ⟨fuel - 1, by omega⟩
  have hs := hc
  unfold Config.sane at hs
  obtain ⟨hK, _, hP16, hP, hS16, hS0, hSE, hH8, hHE, hdisj, hmax⟩ := hs
  obtain ⟨hsz2, hal2, hpa2⟩ := rest_header_size hP16 hP (by omega)
  obtain ⟨h1, e1, hI⟩ := init_heap_spec c hc h0 hp
  have e2 := get_fit_block_init c hc f h1 hI
  obtain ⟨h2, e3, hU⟩ := remove_first c hc h1 hI
  obtain ⟨h3, e4, hA⟩ := split_first c hc h2 hU
  have hl := linked_after_first c hc h3 hA f
  obtain ⟨p1, _, r8, r40, r72, rF, rE, _⟩ := hA
  have em : sf_malloc c (f + 1) 24 h0 = Outcome.ok (c.mem_start + 48) h3 := by
    unfold sf_malloc
    rw [bnd_of_ok (rfl : get_init h0 = Outcome.ok h0.heap_is_init h0), hi,
      if_neg (by decide), bnd_of_ok e1, if_neg (by decide)]
    have ea : get_aligned_size 24 = 32 := by decide
    simp only [ea]
    rw [bnd_of_ok e2, if_neg (by omega)]
    unfold malloc_finish
    rw [bnd_of_ok e3, bnd_of_ok e4]
    show Outcome.ok (add64 (c.mem_start + 32) 16) h3 = _
    rw [show add64 (c.mem_start + 32) 16 = c.mem_start + 48 from add64_eq (by omega)]
  rw [em]
  have e48 : c.mem_start + 8 + 32 + 8 = c.mem_start + 48 := by omega
  have e40 : c.mem_start + 48 - 8 = c.mem_start + 40 := by omega
  have e72 : c.mem_start + 48 + 24 = c.mem_start + 72 := by omega
  have e64 : c.mem_start + 48 + 16 = c.mem_start + 64 := by omega
  have eP : c.PAGE_SZ - 8 - 32 - 8 - 32 = c.PAGE_SZ - 80 := by omega
  have eF : c.mem_start + 64 + (c.PAGE_SZ - 80) = c.mem_start + c.PAGE_SZ - 16 := by omega
  have eme : mem_end c h3 - 8 = c.mem_start + c.PAGE_SZ - 8 := by
    unfold mem_end
    rw [p1]
    omega
  have e35 : PACK 32 1 1 = 35 := by decide
  have e2' : PACK 0 1 0 = 2 := by decide
  have es : sub64 (c.mem_start + 48) 8 = c.mem_start + 40 := by
    rw [sub64_eq (by omega) (by omega)]
    omega
  refine Returns.intro ⟨p1, by omega, by omega, ?_, ?_, ?_, ?_, ?_, ?_, ?_, ?_, ?_, ?_⟩
  · rw [r8, e35]
  · unfold payload_block_size
    rw [es, r40]
    decide
  · rw [e40, r40]
    decide
  · rw [e72, r72, hsz2, eP]
  · rw [e72, r72, hal2]
  · rw [e72, r72, hpa2]
  · rw [e72, r72, hsz2, e64, eF, rF]
  · rw [e72, r72, hsz2, eme]
    omega
  · rw [eme, rE, e2']
  · rw [e64]
    exact hl

/-- C9 (amended), with ten free lists, pages of 4096 bytes and the fresh heap. -/
theorem first_malloc_24_witness :
    (cfg.sane ∧ fresh.pages = 0 ∧ fresh.heap_is_init = false ∧ 1 ≤ 8) ∧
      Returns (sf_malloc cfg 8 24 fresh) (fun p h =>
        h.pages = 1 ∧ p = cfg.mem_start + 8 + 32 + 8 ∧ p % 16 = 0 ∧
          h.mem (cfg.mem_start + 8) = PACK 32 1 1 ∧
          payload_block_size h p = 32 ∧ alloc_of (h.mem (p - 8)) = 1 ∧
          size_of (h.mem (p + 24)) = cfg.PAGE_SZ - 8 - 32 - 8 - 32 ∧
          alloc_of (h.mem (p + 24)) = 0 ∧ prev_alloc_of (h.mem (p + 24)) = 1 ∧
          h.mem (p + 16 + size_of (h.mem (p + 24))) = h.mem (p + 24) ∧
          p + 24 + size_of (h.mem (p + 24)) = mem_end cfg h - 8 ∧
          h.mem (mem_end cfg h - 8) = PACK 0 1 0 ∧
          linked_blocks cfg h (8 + 1) = some [p + 16]) :=
  ⟨⟨by decide, rfl, rfl, by decide⟩,
    first_malloc_24 cfg (by decide) fresh rfl rfl 8 (by decide)⟩

/-- C10 (failing input): after `a = sf_malloc(100)`, `b = sf_malloc(100)`,
`sf_free(a)`, `sf_free(b)` on a fresh heap, one free block of 4048 bytes starts
at the former block of `a`, covers both former blocks and ends at the epilogue,
and it is the only linked block; but with ten lists it sits in list 7 and the
last list, index 9, is empty, and for every number of lists from 2 to 16 the
last list is empty. -/
theorem coalesced_block_not_in_last_list :
    Returns (two_alloc_two_free cfg fresh) (fun r h =>
      r.2 = r.1 + 112 ∧
        size_of (h.mem (r.1 - 8)) = 4048 ∧ alloc_of (h.mem (r.1 - 8)) = 0 ∧
        r.2 - 8 + 112 ≤ r.1 - 8 + 4048 ∧
        r.1 - 8 + 4048 = mem_end cfg h - 8 ∧
        linked_blocks cfg h 4 = some [r.1 - 16] ∧
        free_list cfg h 4 (cfg.NUM_FREE_LISTS - 1) = some [] ∧
        free_list cfg h 4 7 = some [r.1 - 16] ∧
        class_index cfg 4048 = 7) ∧
      (List.range 15).all (fun i =>
        decide (Returns (two_alloc_two_free (cfgK (i + 2)) fresh) (fun r h =>
          linked_blocks (cfgK (i + 2)) h 4 = some [r.1 - 16] ∧
            free_list (cfgK (i + 2)) h 4 (i + 2 - 1) = some []))) = true := by
  decide!

/-- C11 (failing input): `sf_malloc(4040)` fills the first page with one live
block, and the caller zeroes the last word of its 4040 usable bytes.  The
search for 32 bytes finds nothing, and `expand_heap(32)` does not return: it
takes that payload word for a footer of size 0, takes the new page block for
its own free left neighbour and unlinks it through its null links.  With the
words 32, `0x100FD0`, `0x100FD0`, 32 in the last 32 usable bytes instead,
`expand_heap(32)` returns, and the one linked free block has 4128 bytes, more
than the page that was added, and its header lies inside the usable bytes of
the live block.  With the payload as `sf_malloc` left it, the free block is the
new page of 4096 bytes.  Last, with no caller write at all: after a first
`sf_malloc(24)`, for the aligned size `2^64 - 16` of a request of `2^64 - 24`
bytes the search finds nothing, `expand_heap` asks for no page although pages
are left, and the search finds nothing afterwards. -/
theorem growth_merges_into_live_payload :
    Returns (full_page [0] fresh) (fun a h =>
        a = 0x100030 ∧ alloc_of (h.mem (a - 8)) = 1 ∧ payload_block_size h a = 4048 ∧
          a - 16 + 4048 + 16 = mem_end cfg h ∧ h.mem (a + 4032) = 0 ∧
          Returns (get_fit_block cfg 8 32 h) (fun r _ => r = 0) ∧
          isFault (expand_heap cfg 32 h) = true) ∧
      isFault (grow_full_page [0] fresh) = true ∧
      Returns (grow_full_page [32, 0x100FD0, 0x100FD0, 32] fresh) (fun r h =>
        r.1 = 0x100030 ∧ r.2 = 0 ∧ h.pages = 2 ∧
          alloc_of (h.mem (r.1 - 8)) = 1 ∧ payload_block_size h r.1 = 4048 ∧
          linked_blocks cfg h 4 = some [r.1 + 4000] ∧
          alloc_of (h.mem (r.1 + 4000 + 8)) = 0 ∧ block_size h (r.1 + 4000) = 4128 ∧
          r.1 + 4000 + 4128 + 16 = mem_end cfg h ∧
          cfg.PAGE_SZ < block_size h (r.1 + 4000) ∧
          r.1 ≤ r.1 + 4000 + 8 ∧ r.1 + 4000 + 8 < r.1 + 4040) ∧
      Returns (grow_full_page [] fresh) (fun r h =>
        r.2 = 0 ∧ h.pages = 2 ∧ linked_blocks cfg h 4 = some [r.1 + 4032] ∧
          block_size h (r.1 + 4032) = 4096 ∧ r.1 + 4032 + 4096 + 16 = mem_end cfg h) ∧
      Returns (sf_malloc cfg 8 24 fresh) (fun _ h =>
        get_aligned_size (2 ^ 64 - 24) = 2 ^ 64 - 16 ∧
          Returns (get_fit_block cfg 8 (2 ^ 64 - 16) h) (fun r _ => r = 0) ∧
          Returns (expand_heap cfg (2 ^ 64 - 16) h) (fun _ h2 =>
            h2.pages = h.pages ∧ h.pages < cfg.max_pages ∧
              Returns (get_fit_block cfg 8 (2 ^ 64 - 16) h2) (fun r _ => r = 0))) := by
  decide!

/-- C12 (failing input): after `a = sf_malloc(56)`, `b = sf_malloc(24)`,
`sf_realloc(a, 24)` the arena holds four blocks; the second, the remainder of
the shrunk block, is free, and the header of the third, the block of `b`, still
has its previous-allocated bit set.  After the four calls of
`reuse_then_free` the block before the block of `b` is allocated and the
previous-allocated bit of `b` is clear.  After the single call
`sf_malloc(4040)` the only block is allocated and the previous-allocated bit
of the epilogue is clear. -/
theorem boundary_tags_do_not_match :
    Returns (shrink_in_place fresh) (fun r h =>
        arena cfg h 8 = some [r.1 - 16, r.1 + 16, r.2 - 16, r.2 + 16] ∧
          alloc_of (h.mem (r.1 + 16 + 8)) = 0 ∧ prev_alloc_of (h.mem (r.2 - 16 + 8)) = 1 ∧
          (arena cfg h 8).map (tags_match h) = some false) ∧
      Returns (reuse_then_free fresh) (fun b h =>
        arena cfg h 8 = some [b - 48, b - 16, b + 16] ∧
          alloc_of (h.mem (b - 48 + 8)) = 1 ∧ prev_alloc_of (h.mem (b - 16 + 8)) = 0 ∧
          (arena cfg h 8).map (tags_match h) = some false) ∧
      Returns (sf_malloc cfg 8 4040 fresh) (fun a h =>
        arena cfg h 8 = some [a - 16] ∧ alloc_of (h.mem (a - 16 + 8)) = 1 ∧
          prev_alloc_of (h.mem (mem_end cfg h - 16 + 8)) = 0) := by
  decide!

/-- C13 (failing input): after `orphan_setup` with the four words of
`sentinel_tail` the arena holds the free block of `x` and the live block of
`a`, the block of `x` is the one linked block, and no linked block has 112
bytes.  After the next call, `sf_malloc(100)`, which returns, the block of `x`
is still a free block of the arena, of 32 bytes, but it is linked in no list:
list 0 is empty and the only linked block is `0x101040`.  When the caller
writes nothing, every free block is linked exactly once after the same
calls. -/
theorem free_block_left_out_of_the_lists :
    Returns (orphan_setup sentinel_tail fresh) (fun r h =>
        arena cfg h 8 = some [r.1 - 16, r.2 - 16] ∧
          (arena cfg h 8).map (free_blocks h) = some [r.1 - 16] ∧
          linked_blocks cfg h 4 = some [r.1 - 16] ∧
          membership_holds cfg h 8 = some true ∧
          alloc_of (h.mem (r.2 - 8)) = 1 ∧ payload_block_size h r.2 = 4016 ∧
          Returns (get_fit_block cfg 8 112 h) (fun b _ => b = 0)) ∧
      Returns (orphan_scenario sentinel_tail fresh) (fun r h =>
        r.2.2 ≠ 0 ∧
          (arena cfg h 8).map (fun l => decide (r.1 - 16 ∈ l)) = some true ∧
          alloc_of (h.mem (r.1 - 16 + 8)) = 0 ∧ block_size h (r.1 - 16) = 32 ∧
          linked_blocks cfg h 4 = some [0x101040] ∧
          (linked_blocks cfg h 4).map (fun l => decide (r.1 - 16 ∈ l)) = some false ∧
          free_list cfg h 4 0 = some [] ∧
          membership_holds cfg h 8 = some false) ∧
      Returns (orphan_scenario [] fresh) (fun r h =>
        r.2.2 ≠ 0 ∧ membership_holds cfg h 8 = some true) := by
  decide!

/-- C14: on a heap whose free lists can be walked and hold, each but the last,
blocks of its own size class (`index_ok`), for every size `s` of at least 32
`get_fit_block(s)` returns and leaves the heap as it is; its result is `NULL`
exactly when no block linked in any list has at least `s` bytes; otherwise it
is a block of at least `s` bytes in a list `j` from the class of `s` upward,
every block before it in list `j` and every block of the lists from the class
of `s` to `j - 1` being smaller than `s`.  (The bound 27 keeps the `int`
variables of the class loop in range.) -/
theorem first_fit_with_escalation (c : Config) (h : Heap) (fuel s : Nat)
    (hK : 2 ≤ c.NUM_FREE_LISTS) (hK27 : c.NUM_FREE_LISTS ≤ 27) (hH8 : c.heads % 8 = 0)
    (hHE : c.heads + 32 * c.NUM_FREE_LISTS < 18446744073709551616)
    (hs : 32 ≤ s) (hI : index_ok c h fuel) :
    ∃ r, get_fit_block c fuel s h = Outcome.ok r h ∧
      (r = 0 ↔ ∀ j, j < c.NUM_FREE_LISTS → ∀ l, free_list c h fuel j = some l →
        ∀ b ∈ l, block_size h b < s) ∧
      (r ≠ 0 → ∃ j l1 l2, class_index c s ≤ j ∧ j < c.NUM_FREE_LISTS ∧
        free_list c h fuel j = some (l1 ++ r :: l2) ∧ s ≤ block_size h r ∧
        (∀ b ∈ l1, block_size h b < s) ∧
        ∀ i, class_index c s ≤ i → i < j → ∀ l, free_list c h fuel i = some l →
          ∀ b ∈ l, block_size h b < s) := by
  have hcl := class_index_le c hK s
  obtain ⟨r, hr, hfit⟩ := scan_lists_spec c h fuel s hH8 hHE
    (c.NUM_FREE_LISTS - class_index c s) (class_index c s) (by omega)
    (fun j _ hj => hI j hj)
  have hget : get_fit_block c fuel s h = Outcome.ok r h := by
    unfold get_fit_block
    rw [if_neg (by unfold MIN_BLOCK_SIZE; omega)]
    exact hr
  have hnz : ∀ j l, j < c.NUM_FREE_LISTS → free_list c h fuel j = some l → ∀ b ∈ l, b ≠ 0 := by
    intro j l hj hl b hb
    obtain ⟨l0, hl0, hall⟩ := list_ok_free_list (hI j hj)
    rw [hl] at hl0
    cases hl0
    exact (hall b hb).1
  have hlow : ∀ j, j < class_index c s → ∀ l, free_list c h fuel j = some l →
      ∀ b ∈ l, block_size h b < s := by
    intro j hj l hl b hb
    obtain ⟨l0, hl0, hall⟩ := list_ok_free_list (hI j (by omega))
    rw [hl] at hl0
    cases hl0
    rcases (hall b hb).2.2 with hlast | hclass
    · omega
    · by_contra hge
      have := class_index_mono c hK s (block_size h b) hs (by omega)
      omega
  refine ⟨r, hget, ?_, ?_⟩
  · constructor
    · intro hr0
      rcases hfit with ⟨_, hrest⟩ | ⟨j, l1, l2, _, h2, h3, _, _, _⟩
      · intro j hj l hl
        by_cases hjc : j < class_index c s
        · exact hlow j hjc l hl
        · exact hrest j (by omega) hj l hl
      · exact absurd hr0 (hnz j _ h2 h3 r (by simp))
    · intro hall
      rcases hfit with ⟨hr0, _⟩ | ⟨j, l1, l2, _, h2, h3, h4, _, _⟩
      · exact hr0
      · have := hall j h2 _ h3 r (by simp)
        omega
  · intro hr0
    rcases hfit with ⟨hr1, _⟩ | hex
    · exact absurd hr1 hr0
    · exact hex

/-- C14, on the heap built by `adjacent_free_setup` (a 32-byte block in list 0,
two 64-byte blocks in list 1, a 3792-byte block in list 7) with `s = 80`: the
search starts at list 2 and returns the block of list 7. -/
theorem first_fit_with_escalation_witness :
    (2 ≤ cfg.NUM_FREE_LISTS ∧ cfg.NUM_FREE_LISTS ≤ 27 ∧ cfg.heads % 8 = 0 ∧
        cfg.heads + 32 * cfg.NUM_FREE_LISTS < 18446744073709551616 ∧ 32 ≤ 80 ∧
        index_ok cfg setup_heap 8) ∧
      (∃ r, get_fit_block cfg 8 80 setup_heap = Outcome.ok r setup_heap ∧
        (r = 0 ↔ ∀ j, j < cfg.NUM_FREE_LISTS → ∀ l, free_list cfg setup_heap 8 j = some l →
          ∀ b ∈ l, block_size setup_heap b < 80) ∧
        (r ≠ 0 → ∃ j l1 l2, class_index cfg 80 ≤ j ∧ j < cfg.NUM_FREE_LISTS ∧
          free_list cfg setup_heap 8 j = some (l1 ++ r :: l2) ∧ 80 ≤ block_size setup_heap r ∧
          (∀ b ∈ l1, block_size setup_heap b < 80) ∧
          ∀ i, class_index cfg 80 ≤ i → i < j → ∀ l, free_list cfg setup_heap 8 i = some l →
            ∀ b ∈ l, block_size setup_heap b < 80)) ∧
      Returns (get_fit_block cfg 8 80 setup_heap) (fun r _ => r = 0x100120) ∧
      Returns (get_fit_block cfg 8 4000 setup_heap) (fun r _ => r = 0) :=
  ⟨⟨by decide, by decide, by decide, by decide, by decide, by decide!⟩,
    first_fit_with_escalation cfg setup_heap 8 80 (by decide) (by decide) (by decide)
      (by decide) (by decide) (by decide!),
    by decide!, by decide!⟩

/-- C15 (counterexample): with ten lists, the size 48, which lies in `[32, 64)`,
is of class 1 and not 0; the size 300, which lies in `[256, 512)`, is of class
4 and not 3; and the size `2 ^ 40` is of class 8, not of the last class 9. -/
theorem class_of_48_is_not_0 :
    32 ≤ 48 ∧ 48 < 2 * 32 ∧ class_index cfg 48 = 1 ∧
      2 ^ 3 * 32 ≤ 300 ∧ 300 < 2 ^ 4 * 32 ∧ class_index cfg 300 = 4 ∧
      class_index cfg (2 ^ 40) = 8 ∧ cfg.NUM_FREE_LISTS - 1 = 9 := by
  decide

/-- C15 (amended): with `K` lists, `3 ≤ K` (and `K ≤ 27`, which keeps the `int`
variables of the loop in range), the class index that `insert_free_list` and
`get_fit_block` compute is 0 for the size 32, is `i` for a size in
`(32 * 2 ^ (i - 1), 32 * 2 ^ i]` when `1 ≤ i ≤ K - 3`, is `K - 2` for every size
above `32 * 2 ^ (K - 3)`, and is never the last index `K - 1`. -/
theorem size_class_mapping (c : Config) (hK : 3 ≤ c.NUM_FREE_LISTS)
    (hK27 : c.NUM_FREE_LISTS ≤ 27) (s : Nat) :
    (s = 32 → class_index c s = 0) ∧
      (∀ i, 1 ≤ i → i + 3 ≤ c.NUM_FREE_LISTS → 32 * 2 ^ (i - 1) < s → s ≤ 32 * 2 ^ i →
        class_index c s = i) ∧
      (32 * 2 ^ (c.NUM_FREE_LISTS - 3) < s → class_index c s = c.NUM_FREE_LISTS - 2) ∧
      class_index c s < c.NUM_FREE_LISTS - 1 := by
  obtain ⟨h1, h2, h3, h4⟩ := class_index_spec c hK s
  exact ⟨h1, h2, h3, by omega⟩

/-- C15 (amended), with ten lists and the size 48, and the classes of some
sizes: 32, 33, 64, 65, 4048, 4096, 4097 and `2 ^ 40`. -/
theorem size_class_mapping_witness :
    (3 ≤ cfg.NUM_FREE_LISTS ∧ cfg.NUM_FREE_LISTS ≤ 27) ∧
      ((48 = 32 → class_index cfg 48 = 0) ∧
        (∀ i, 1 ≤ i → i + 3 ≤ cfg.NUM_FREE_LISTS → 32 * 2 ^ (i - 1) < 48 → 48 ≤ 32 * 2 ^ i →
          class_index cfg 48 = i) ∧
        (32 * 2 ^ (cfg.NUM_FREE_LISTS - 3) < 48 →
          class_index cfg 48 = cfg.NUM_FREE_LISTS - 2) ∧
        class_index cfg 48 < cfg.NUM_FREE_LISTS - 1) ∧
      (class_index cfg 32 = 0 ∧ class_index cfg 33 = 1 ∧ class_index cfg 64 = 1 ∧
        class_index cfg 65 = 2 ∧ class_index cfg 4048 = 7 ∧ class_index cfg 4096 = 7 ∧
        class_index cfg 4097 = 8 ∧ class_index cfg (2 ^ 40) = 8) :=
  ⟨⟨by decide, by decide⟩, size_class_mapping cfg (by decide) (by decide) 48, by decide⟩

/-- C16 (failing input): `get_aligned_size(2^64 - 1)` is 32, which is less than
the request plus a header word and is not `max(32, 16 * ceil((n + 8) / 16))`;
the result is 32 from `2^64 - 23` on.  For every request `n` up to `2^64 - 24`
the result is as claimed: it is `max(32, 16 * ceil((n + 8) / 16))`, the least
multiple of 16 that is at least 32 and at least `n + 8`. -/
theorem aligned_size_wraps_around (n : Nat) (hn : n + 24 ≤ 2 ^ 64) :
    (get_aligned_size (2 ^ 64 - 1) = 32 ∧
        ¬ (2 ^ 64 - 1 + 8 ≤ get_aligned_size (2 ^ 64 - 1)) ∧
        get_aligned_size (2 ^ 64 - 1) ≠ max 32 (16 * ((2 ^ 64 - 1 + 8 + 15) / 16)) ∧
        get_aligned_size (2 ^ 64 - 23) = 32 ∧
        get_aligned_size (2 ^ 64 - 24) = 2 ^ 64 - 16) ∧
      (get_aligned_size n = max 32 (16 * ((n + 8 + 15) / 16)) ∧
        get_aligned_size n % 16 = 0 ∧ 32 ≤ get_aligned_size n ∧ n + 8 ≤ get_aligned_size n ∧
        ∀ m, m % 16 = 0 → 32 ≤ m → n + 8 ≤ m → get_aligned_size n ≤ m) :=
  ⟨by decide, get_aligned_size_in_range n hn⟩

/-- C16, at the requests 24 and 25: the aligned sizes are 32 and 48. -/
theorem aligned_size_wraps_around_witness :
    (24 + 24 ≤ 2 ^ 64 ∧ 25 + 24 ≤ 2 ^ 64) ∧
      get_aligned_size 24 = max 32 (16 * ((24 + 8 + 15) / 16)) ∧ get_aligned_size 24 = 32 ∧
      get_aligned_size 25 = max 32 (16 * ((25 + 8 + 15) / 16)) ∧ get_aligned_size 25 = 48 ∧
      get_aligned_size (2 ^ 64 - 1) = 32 :=
  ⟨by decide, (aligned_size_wraps_around 24 (by decide)).2.1, by decide,
    (aligned_size_wraps_around 25 (by decide)).2.1, by decide,
    (aligned_size_wraps_around 24 (by decide)).1.1⟩

/-- C17 (failing input): after the first call `sf_malloc(24)` the free block
that ends at the epilogue has 4016 bytes and the last list is empty.  For the
aligned size 5008 of a request of 5000 bytes the search finds nothing and one
more page would do, `ceil((5008 - 4016) / 4096) = 1`; `expand_heap(5008)` takes
two pages, and so does `sf_malloc(5000)`. -/
theorem growth_requests_too_many_pages :
    Returns (sf_malloc cfg 8 24 fresh) (fun p h =>
      h.pages = 1 ∧ alloc_of (h.mem (p + 16 + 8)) = 0 ∧ block_size h (p + 16) = 4016 ∧
        p + 16 + 4016 + 16 = mem_end cfg h ∧
        free_list cfg h 4 (cfg.NUM_FREE_LISTS - 1) = some [] ∧
        get_aligned_size 5000 = 5008 ∧
        Returns (get_fit_block cfg 8 5008 h) (fun r _ => r = 0) ∧
        (5008 - 4016 + (cfg.PAGE_SZ - 1)) / cfg.PAGE_SZ = 1 ∧
        Returns (expand_heap cfg 5008 h) (fun _ h2 => h2.pages = h.pages + 2) ∧
        Returns (sf_malloc cfg 8 5000 h) (fun q h2 => q ≠ 0 ∧ h2.pages = 3)) := by
  decide!

/-- C18 (failing input): after `overlap_scenario`, in which every call is made
on a live address and the caller writes only into the last 32 of the 56 usable
bytes of its live allocation, that allocation (block size 64) is still marked
allocated, and the address returned by the last `sf_malloc(24)` (block size 32)
lies inside it: the 24 usable bytes of the new allocation are the bytes 32 to
55 of the old one. -/
theorem live_allocations_overlap :
    Returns (overlap_scenario fresh) (fun r h =>
      r.1 ≠ 0 ∧ r.2 ≠ 0 ∧ r.1 ≠ r.2 ∧
        alloc_of (h.mem (r.1 - 8)) = 1 ∧ payload_block_size h r.1 = 64 ∧
        alloc_of (h.mem (r.2 - 8)) = 1 ∧ payload_block_size h r.2 = 32 ∧
        r.1 ≤ r.2 ∧ r.2 + (32 - 8) ≤ r.1 + (64 - 8)) := by
  decide!

/-- C19 (failing input): after `a = sf_malloc(56)`, `b = sf_malloc(24)`,
`sf_realloc(a, 24)`, `sf_free(b)` the arena holds three blocks; the second, of
32 bytes, and the third, which starts where the second ends, are both free, and
both are linked in the free lists. -/
theorem adjacent_free_blocks_remain :
    Returns (shrink_then_free_next fresh) (fun r h =>
      arena cfg h 8 = some [r.1 - 16, r.1 + 16, r.2 - 16] ∧
        alloc_of (h.mem (r.1 + 16 + 8)) = 0 ∧ block_size h (r.1 + 16) = 32 ∧
        r.1 + 16 + 32 = r.2 - 16 ∧ alloc_of (h.mem (r.2 - 16 + 8)) = 0 ∧
        linked_blocks cfg h 4 = some [r.1 + 16, r.2 - 16] ∧
        (arena cfg h 8).map (free_neighbours h) = some true) := by
  decide!

/-- C20 (failing input): `stale_heap` and `forged_heap` have the same extent and
globals and the same words everywhere but in the 56 usable bytes of the live
allocation at `0x100030`; `sf_free(0x100070)`, a release of the other live
allocation, aborts on the first and returns on the second.  Likewise
`sf_malloc(24)` after `sf_malloc(4040)` returns `0x101000` when the payload is
as `sf_malloc` left it and `0x100FE0` when the caller has stored four words in
its last 32 bytes. -/
theorem release_depends_on_payload :
    Returns (stale_bit_setup fresh) (fun r _ => r.1 = 0x100070 ∧ r.2 = 0x100030) ∧
      alloc_of (stale_heap.mem (0x100030 - 8)) = 1 ∧
      payload_block_size stale_heap 0x100030 = 64 ∧
      forge_tail 0x100030 stale_heap = Outcome.ok () forged_heap ∧
      forged_heap.pages = stale_heap.pages ∧
      forged_heap.heap_is_init = stale_heap.heap_is_init ∧
      forged_heap.sf_errno = stale_heap.sf_errno ∧
      (∀ x, (x < 0x100030 ∨ 0x100030 + (64 - 8) ≤ x) →
        forged_heap.mem x = stale_heap.mem x) ∧
      sf_free cfg 0x100070 stale_heap = Outcome.abort ∧
      Returns (sf_free cfg 0x100070 forged_heap)
        (fun _ h => linked_blocks cfg h 4 = some [0x100040]) ∧
      Returns (bnd (full_page []) (fun _ => sf_malloc cfg 8 24) fresh)
        (fun p _ => p = 0x101000) ∧
      Returns (bnd (full_page [32, 0x100FD0, 0x100FD0, 32]) (fun _ => sf_malloc cfg 8 24) fresh)
        (fun p _ => p = 0x100FE0) := by
  have hw : forge_tail 0x100030 stale_heap = Outcome.ok () forged_heap :=
    ok_of_isOk (by decide!)
  obtain ⟨k1, k2, k3, k4⟩ := caller_writes_frame cfg _ _ _ _ _ (by decide) hw
  refine ⟨by decide!, by decide!, by decide!, hw, k1, k2, k3, ?_, eq_abort_of (by decide!),
    by decide!, by decide!, by decide!⟩
  intro x hx
  refine k4 x ?_
  simp only [List.length_cons, List.length_nil]
  omega

end Sfmm
